import Mathlib

/-!
Verification of the Python AST structure extractor
(`src/tools/python_ast_parser.py`).

The parser operates on trees produced by CPython's `ast.parse`; the stdlib
parser itself is external to the repository, so source texts are modelled as
a string together with the parse result CPython would return for it.  The
embedded tree covers every node kind the extractor inspects (function,
async-function and class definitions, conditionals, loops, try/with blocks,
exception handlers, imports, boolean operations, calls, attributes,
subscripts, constants, names) plus the argument records used for signature
reconstruction.  Constant nodes are carried as their `repr` string, which is
the only way the extractor ever consumes them.
-/

namespace PyParser

/-- Embedded `ast.expr` nodes.  Only the constructors the extractor
dispatches on are distinguished; every other expression kind would fall into
the extractor's catch-all branches exactly like `const` or `boolOp` do. -/
inductive PyExpr : Type where
  | name (id : String)
  | attr (value : PyExpr) (a : String)
  | call (func : PyExpr) (args : List PyExpr)
  | const (re : String)
  | boolOp (values : List PyExpr)
  | subscript (value : PyExpr) (slice : PyExpr)

/-- Embedded `ast.arg`: parameter name plus optional annotation. -/
structure PyArg where
  arg : String
  ann : Option PyExpr

/-- Embedded `ast.arguments`: positional args, `*args`, `**kwargs` and the
positional default expressions (the only fields the extractor reads). -/
structure PyArguments where
  args : List PyArg
  vararg : Option PyArg
  kwarg : Option PyArg
  defaults : List PyExpr

/-- Embedded `ast.stmt` nodes.  `tryStmt` carries its handlers as their
bodies (the handler type/name are never read by the extractor);
`end_lineno` is optional exactly as in CPython. -/
inductive PyStmt : Type where
  | functionDef (nm : String) (args : PyArguments) (body : List PyStmt)
      (decorator_list : List PyExpr) (returns : Option PyExpr)
      (lineno : Nat) (end_lineno : Option Nat)
  | asyncFunctionDef (nm : String) (args : PyArguments) (body : List PyStmt)
      (decorator_list : List PyExpr) (returns : Option PyExpr)
      (lineno : Nat) (end_lineno : Option Nat)
  | classDef (nm : String) (bases : List PyExpr) (body : List PyStmt)
      (decorator_list : List PyExpr) (lineno : Nat) (end_lineno : Option Nat)
  | ifStmt (test : PyExpr) (body : List PyStmt) (orelse : List PyStmt)
  | forStmt (iter : PyExpr) (body : List PyStmt) (orelse : List PyStmt)
  | whileStmt (test : PyExpr) (body : List PyStmt) (orelse : List PyStmt)
  | tryStmt (body : List PyStmt) (handlers : List (List PyStmt))
      (orelse : List PyStmt) (finalbody : List PyStmt)
  | withStmt (body : List PyStmt)
  | importStmt (names : List String)
  | importFrom (module : Option String) (names : List String)
  | exprStmt (e : PyExpr)
  | returnStmt (e : Option PyExpr)
  | passStmt

/-- A node of the generic AST as traversed by `ast.walk` /
`ast.iter_child_nodes`: modules, statements, expressions, argument records
and exception handlers are all AST nodes in CPython. -/
inductive PyNode : Type where
  | module (body : List PyStmt)
  | stmt (s : PyStmt)
  | expr (e : PyExpr)
  | argsNode (a : PyArguments)
  | argNode (a : PyArg)
  | handler (body : List PyStmt)

/-- Children of an `ast.arg` node (the annotation expression, if any). -/
def argChildren (a : PyArg) : List PyNode :=
  match a.ann with
  | some e => [.expr e]
  | none => []

/-- Children of an `ast.arguments` node, in CPython field order
(`args`, `vararg`, `kwarg`, `defaults` among the modelled fields). -/
def argumentsChildren (a : PyArguments) : List PyNode :=
  a.args.map .argNode
    ++ (match a.vararg with | some v => [.argNode v] | none => [])
    ++ (match a.kwarg with | some k => [.argNode k] | none => [])
    ++ a.defaults.map .expr

/-- `ast.iter_child_nodes`: the direct child nodes of a node, in CPython
field order. -/
def children : PyNode → List PyNode
  | .module body => body.map .stmt
  | .stmt (.functionDef _ args body decs ret _ _) =>
      .argsNode args :: (body.map .stmt ++ decs.map .expr
        ++ (match ret with | some r => [.expr r] | none => []))
  | .stmt (.asyncFunctionDef _ args body decs ret _ _) =>
      .argsNode args :: (body.map .stmt ++ decs.map .expr
        ++ (match ret with | some r => [.expr r] | none => []))
  | .stmt (.classDef _ bases body decs _ _) =>
      bases.map .expr ++ body.map .stmt ++ decs.map .expr
  | .stmt (.ifStmt t b o) => .expr t :: (b.map .stmt ++ o.map .stmt)
  | .stmt (.forStmt it b o) => .expr it :: (b.map .stmt ++ o.map .stmt)
  | .stmt (.whileStmt t b o) => .expr t :: (b.map .stmt ++ o.map .stmt)
  | .stmt (.tryStmt b hs o f) =>
      b.map .stmt ++ hs.map .handler ++ o.map .stmt ++ f.map .stmt
  | .stmt (.withStmt b) => b.map .stmt
  | .stmt (.importStmt _) => []
  | .stmt (.importFrom _ _) => []
  | .stmt (.exprStmt e) => [.expr e]
  | .stmt (.returnStmt (some e)) => [.expr e]
  | .stmt (.returnStmt none) => []
  | .stmt .passStmt => []
  | .expr (.name _) => []
  | .expr (.attr v _) => [.expr v]
  | .expr (.call f as) => .expr f :: as.map .expr
  | .expr (.const _) => []
  | .expr (.boolOp vs) => vs.map .expr
  | .expr (.subscript v s) => [.expr v, .expr s]
  | .argsNode a => argumentsChildren a
  | .argNode a => argChildren a
  | .handler b => b.map .stmt

/-!  A hand-rolled structural size measure for the walk's termination fuel.
It is arranged so that the size of a node is exactly one more than the
total size of its children. -/

/-- Size of an expression: total size of the children of `PyNode.expr e`. -/
def exprSize : PyExpr → Nat
  | .name _ => 0
  | .attr v _ => 1 + exprSize v
  | .call f as => 1 + exprSize f + goList as
  | .const _ => 0
  | .boolOp vs => goList vs
  | .subscript v s => 2 + exprSize v + exprSize s
where goList : List PyExpr → Nat
  | [] => 0
  | e :: t => 1 + exprSize e + goList t
termination_by structural e => e

/-- Total node size of a list of expression children. -/
def exprsListSize : List PyExpr → Nat
  | [] => 0
  | e :: t => 1 + exprSize e + exprsListSize t

theorem exprSize_goList_eq (l : List PyExpr) : exprSize.goList l = exprsListSize l := by
  induction l with
  | nil => rfl
  | cons e t ih => simp [exprSize.goList, exprsListSize, ih]

/-- Size contributed by an optional expression child. -/
def optExprSize : Option PyExpr → Nat
  | some e => 1 + exprSize e
  | none => 0

/-- Size of an `ast.arg` node's children. -/
def argSize (a : PyArg) : Nat := optExprSize a.ann

/-- Total node size of a list of `ast.arg` children. -/
def argsListSize : List PyArg → Nat
  | [] => 0
  | a :: t => 1 + argSize a + argsListSize t

/-- Size contributed by an optional `ast.arg` child. -/
def optArgSize : Option PyArg → Nat
  | some a => 1 + argSize a
  | none => 0

/-- Size of an `ast.arguments` node's children. -/
def argumentsSize (a : PyArguments) : Nat :=
  argsListSize a.args + optArgSize a.vararg + optArgSize a.kwarg
    + exprsListSize a.defaults

/-- Size of a statement: total size of the children of `PyNode.stmt s`. -/
def stmtSize : PyStmt → Nat
  | .functionDef _ args body decs ret _ _ =>
      1 + argumentsSize args + goBody body + exprsListSize decs + optExprSize ret
  | .asyncFunctionDef _ args body decs ret _ _ =>
      1 + argumentsSize args + goBody body + exprsListSize decs + optExprSize ret
  | .classDef _ bases body decs _ _ =>
      exprsListSize bases + goBody body + exprsListSize decs
  | .ifStmt t b o => 1 + exprSize t + goBody b + goBody o
  | .forStmt it b o => 1 + exprSize it + goBody b + goBody o
  | .whileStmt t b o => 1 + exprSize t + goBody b + goBody o
  | .tryStmt b hs o f => goBody b + goHandlers hs + goBody o + goBody f
  | .withStmt b => goBody b
  | .importStmt _ => 0
  | .importFrom _ _ => 0
  | .exprStmt e => 1 + exprSize e
  | .returnStmt e => optExprSize e
  | .passStmt => 0
where
  goBody : List PyStmt → Nat
    | [] => 0
    | s :: t => 1 + stmtSize s + goBody t
  goHandlers : List (List PyStmt) → Nat
    | [] => 0
    | h :: t => 1 + goBody h + goHandlers t
termination_by structural s => s

/-- Size of a generic AST node (one more than the total size of its
children). -/
def nodeSize : PyNode → Nat
  | .module body => 1 + stmtSize.goBody body
  | .stmt s => 1 + stmtSize s
  | .expr e => 1 + exprSize e
  | .argsNode a => 1 + argumentsSize a
  | .argNode a => 1 + argSize a
  | .handler b => 1 + stmtSize.goBody b

/-- Total size of a queue of nodes; the fuel measure for the breadth-first
walk. -/
def sizes (q : List PyNode) : Nat := (q.map nodeSize).sum

theorem sizes_nil : sizes [] = 0 := rfl

theorem sizes_cons (n : PyNode) (q : List PyNode) :
    sizes (n :: q) = nodeSize n + sizes q := by
  simp [sizes]

theorem sizes_append (q r : List PyNode) :
    sizes (q ++ r) = sizes q + sizes r := by
  simp [sizes]

theorem sizes_map_stmt (l : List PyStmt) :
    sizes (l.map .stmt) = stmtSize.goBody l := by
  induction l with
  | nil => rfl
  | cons s t ih => simp [sizes_cons, stmtSize.goBody, nodeSize, ih, Nat.add_comm]

theorem sizes_map_expr (l : List PyExpr) :
    sizes (l.map .expr) = exprsListSize l := by
  induction l with
  | nil => rfl
  | cons e t ih => simp [sizes_cons, exprsListSize, nodeSize, ih, Nat.add_comm]

theorem sizes_map_handler (l : List (List PyStmt)) :
    sizes (l.map .handler) = stmtSize.goHandlers l := by
  induction l with
  | nil => rfl
  | cons h t ih => simp [sizes_cons, stmtSize.goHandlers, nodeSize, ih, Nat.add_comm]

theorem sizes_map_argNode (l : List PyArg) :
    sizes (l.map .argNode) = argsListSize l := by
  induction l with
  | nil => rfl
  | cons a t ih => simp [sizes_cons, argsListSize, nodeSize, ih, Nat.add_comm]

theorem sizes_opt_expr (r : Option PyExpr) :
    sizes (match r with | some e => [.expr e] | none => []) = optExprSize r := by
  cases r <;> simp [sizes, optExprSize, nodeSize]

theorem sizes_opt_argNode (r : Option PyArg) :
    sizes (match r with | some v => [.argNode v] | none => []) = optArgSize r := by
  cases r <;> simp [sizes, optArgSize, nodeSize]

/-- A node is exactly one size unit larger than all of its children
together; the walk's queue therefore shrinks at every step. -/
theorem nodeSize_children (n : PyNode) : nodeSize n = 1 + sizes (children n) := by
  cases n with
  | module body => simp [children, nodeSize, sizes_map_stmt]
  | stmt s =>
      cases s with
      | functionDef nm args body decs ret l el =>
          simp [children, nodeSize, stmtSize, sizes_cons, sizes_append,
            sizes_map_stmt, sizes_map_expr, sizes_opt_expr, argumentsChildren]
          omega
      | asyncFunctionDef nm args body decs ret l el =>
          simp [children, nodeSize, stmtSize, sizes_cons, sizes_append,
            sizes_map_stmt, sizes_map_expr, sizes_opt_expr]
          omega
      | classDef nm bases body decs l el =>
          simp [children, nodeSize, stmtSize, sizes_append,
            sizes_map_stmt, sizes_map_expr]
          omega
      | ifStmt t b o =>
          simp [children, nodeSize, stmtSize, sizes_cons, sizes_append,
            sizes_map_stmt]
          omega
      | forStmt it b o =>
          simp [children, nodeSize, stmtSize, sizes_cons, sizes_append,
            sizes_map_stmt]
          omega
      | whileStmt t b o =>
          simp [children, nodeSize, stmtSize, sizes_cons, sizes_append,
            sizes_map_stmt]
          omega
      | tryStmt b hs o f =>
          simp [children, nodeSize, stmtSize, sizes_append,
            sizes_map_stmt, sizes_map_handler]
          omega
      | withStmt b => simp [children, nodeSize, stmtSize, sizes_map_stmt]
      | importStmt names => simp [children, nodeSize, stmtSize, sizes_nil]
      | importFrom m names => simp [children, nodeSize, stmtSize, sizes_nil]
      | exprStmt e => simp [children, nodeSize, stmtSize, sizes_cons, sizes_nil]
      | returnStmt e =>
          cases e <;>
            simp [children, nodeSize, stmtSize, sizes_cons, sizes_nil, optExprSize]
      | passStmt => simp [children, nodeSize, stmtSize, sizes_nil]
  | expr e =>
      cases e with
      | name id => simp [children, nodeSize, exprSize, sizes_nil]
      | attr v a => simp [children, nodeSize, exprSize, sizes_cons, sizes_nil]
      | call f as =>
          simp [children, nodeSize, exprSize, sizes_cons, sizes_append,
            sizes_map_expr, exprSize_goList_eq]
      | const r => simp [children, nodeSize, exprSize, sizes_nil]
      | boolOp vs =>
          simp [children, nodeSize, exprSize, sizes_map_expr, exprSize_goList_eq]
      | subscript v s =>
          simp [children, nodeSize, exprSize, sizes_cons, sizes_nil]
          omega
  | argsNode a =>
      simp [children, nodeSize, argumentsChildren, argumentsSize, sizes_append,
        sizes_map_argNode, sizes_map_expr, sizes_opt_argNode]
      omega
  | argNode a =>
      cases h : a.ann <;> simp [children, nodeSize, argChildren, argSize, h,
        optExprSize, sizes_cons, sizes_nil]
  | handler b => simp [children, nodeSize, sizes_map_stmt]

theorem one_le_nodeSize (n : PyNode) : 1 ≤ nodeSize n := by
  cases n <;> simp [nodeSize]

/-- Fuel-driven breadth-first queue traversal; `walk` below instantiates the
fuel with a sufficient bound.  This is `ast.walk`'s deque loop: pop a node,
yield it, push its children at the back. -/
def walkF : Nat → List PyNode → List PyNode
  | 0, _ => []
  | _ + 1, [] => []
  | fuel + 1, n :: q => n :: walkF fuel (q ++ children n)

/-- `ast.walk(root)` for a queue of roots: yields every node of every tree
in the queue, in breadth-first order. -/
def walk (q : List PyNode) : List PyNode := walkF (sizes q) q

theorem sizes_step_lt (n : PyNode) (q : List PyNode) :
    sizes (q ++ children n) < sizes (n :: q) := by
  have h := nodeSize_children n
  simp only [sizes_append, sizes_cons]
  omega

theorem walkF_congr : ∀ (f₁ : Nat) (q : List PyNode) (f₂ : Nat),
    sizes q ≤ f₁ → sizes q ≤ f₂ → walkF f₁ q = walkF f₂ q := by
  intro f₁
  induction f₁ with
  | zero =>
      intro q f₂ h1 _
      match q with
      | [] => cases f₂ <;> rfl
      | n :: q =>
          exfalso
          have := one_le_nodeSize n
          simp only [sizes_cons] at h1
          omega
  | succ f ih =>
      intro q f₂ h1 h2
      match q with
      | [] => cases f₂ <;> rfl
      | n :: q =>
          match f₂ with
          | 0 =>
              exfalso
              have := one_le_nodeSize n
              simp only [sizes_cons] at h2
              omega
          | f₂' + 1 =>
              have hs := sizes_step_lt n q
              simp only [walkF]
              rw [ih (q ++ children n) f₂' (by omega) (by omega)]

theorem walk_nil : walk [] = [] := rfl

/-- One step of the breadth-first walk. -/
theorem walk_cons (n : PyNode) (q : List PyNode) :
    walk (n :: q) = n :: walk (q ++ children n) := by
  have h1 : 1 ≤ sizes (n :: q) := by
    have := one_le_nodeSize n
    simp only [sizes_cons]
    omega
  have hs := sizes_step_lt n q
  obtain ⟨f, hf⟩ : ∃ f, sizes (n :: q) = f + 1 := ⟨sizes (n :: q) - 1, by omega⟩
  unfold walk
  rw [hf]
  simp only [walkF]
  rw [walkF_congr f (q ++ children n) (sizes (q ++ children n)) (by omega) (by omega)]


/-!  String-rendering helpers of `PythonASTParser`. -/

/-- The spine of `_get_attribute_chain`'s while loop: attribute names from
the outermost attribute access inwards, then the base identifier when the
spine ends in a bare name (nothing otherwise). -/
def chain_parts : PyExpr → List String
  | .attr v a => a :: chain_parts v
  | .name id => [id]
  | _ => []

/-- `_get_attribute_chain`: full dotted chain such as `self.method`. -/
def get_attribute_chain (e : PyExpr) : String :=
  ".".intercalate (chain_parts e).reverse

/-- `_get_name`, with `r` standing for this run's `str(node)`.  CPython's
`str` on an AST object renders the class name plus the object's memory
address; its value belongs to one concrete run (the freshly built objects'
addresses), not to the source text, so the extractor is parameterized by
the rendering wherever the fallback can reach the output — exactly as it
is parameterized by the external `hashlib` digest. -/
def get_name_r (r : PyExpr → String) : PyExpr → String
  | .name id => id
  | .attr v a => get_attribute_chain (.attr v a)
  | e => r e

/-- `_get_call_name`. -/
def get_call_name : PyExpr → String
  | .name id => id
  | .attr v a => get_attribute_chain (.attr v a)
  | _ => ""

/-- `_get_annotation`: render a type annotation as a string. -/
def ann_string : PyExpr → String
  | .name id => id
  | .attr v a => get_attribute_chain (.attr v a)
  | .subscript v s => ann_string v ++ "[" ++ ann_string s ++ "]"
  | .const r => r
  | _ => "Any"

/-- `_get_default_value`: render a default-value expression as a string. -/
def get_default_value : PyExpr → String
  | .const r => r
  | .name id => id
  | .attr v a => get_attribute_chain (.attr v a)
  | _ => "..."

/-- `_get_decorator_name`, with `r` standing for this run's `str(node)`
(see `get_name_r`). -/
def get_decorator_name_r (r : PyExpr → String) : PyExpr → String
  | .name id => id
  | .attr v a => get_attribute_chain (.attr v a)
  | .call f _ => get_call_name f
  | d => r d

/-- A fixed stand-in for one particular run's `str(node)` rendering, used
to instantiate the extractor for the claims whose content does not depend
on that rendering (C8 quantifies over it instead). -/
def str_of_node (_ : PyExpr) : String := "<ast object>"

/-- `_get_name` under the fixed stand-in rendering. -/
def get_name : PyExpr → String := get_name_r str_of_node

/-- `_get_decorator_name` under the fixed stand-in rendering. -/
def get_decorator_name : PyExpr → String := get_decorator_name_r str_of_node

/-- Python's `s.startswith(p)` (computed on the character lists). -/
def py_startswith (s p : String) : Bool := p.toList.isPrefixOf s.toList

/-- Python's `s.endswith(p)` (computed on the character lists). -/
def py_endswith (s p : String) : Bool := p.toList.isSuffixOf s.toList

/-- `_determine_visibility`: naming-convention based visibility. -/
def determine_visibility (nm : String) : String :=
  if py_startswith nm "__" && py_endswith nm "__" then "public"
  else if py_startswith nm "__" then "private"
  else if py_startswith nm "_" then "protected"
  else "public"

/-- `ast.get_docstring(node) or ""`: the docstring when the first body
statement is an expression statement holding a string constant.  Known
divergence of the embedding: constants carry only their repr, so this
returns the repr of whatever leading constant exists, where CPython
returns the `inspect.cleandoc`-cleaned string value and only for string
constants.  No claim inspects the docstring field. -/
def get_docstring : List PyStmt → String
  | .exprStmt (.const r) :: _ => r
  | _ => ""

/-- Python's `end_lineno or lineno`: `or` takes the right operand when the
left is falsy, i.e. `None` or `0`. -/
def py_or_line (e : Option Nat) (l : Nat) : Nat :=
  match e with
  | some v => if v = 0 then l else v
  | none => l

/-- Containment of one character list in another at some position. -/
def chars_contain (n : List Char) : List Char → Bool
  | [] => n.isEmpty
  | c :: t => n.isPrefixOf (c :: t) || chars_contain n t

/-- Python's substring test `needle in hay` on strings. -/
def py_in_str (needle hay : String) : Bool :=
  chars_contain needle.toList hay.toList

/-!  `_calculate_complexity`. -/

/-- Per-node contribution of `_calculate_complexity`'s walk: 1 for each
`If`/`For`/`While`/`Try`/`With`, `len(values) - 1` for a `BoolOp`, 1 for
each `ExceptHandler`, 0 otherwise. -/
def node_weight : PyNode → Nat
  | .stmt (.ifStmt _ _ _) => 1
  | .stmt (.forStmt _ _ _) => 1
  | .stmt (.whileStmt _ _ _) => 1
  | .stmt (.tryStmt _ _ _ _) => 1
  | .stmt (.withStmt _) => 1
  | .expr (.boolOp vs) => vs.length - 1
  | .handler _ => 1
  | _ => 0

/-- `_calculate_complexity`: base 1.0 plus the walk's weights.  The Python
float is integer-valued throughout (every increment is a whole number), so
the score is carried as a natural number. -/
def calculate_complexity (n : PyNode) : Nat :=
  1 + ((walk [n]).map node_weight).sum

/-!  `_extract_dependencies`. -/

/-- Dependency name contributed by one walked node: a call's target name,
or a standalone attribute chain (each guarded by Python string truthiness,
i.e. dropped when empty). -/
def dep_entry : PyNode → Option String
  | .expr (.call f _) =>
      let fn := get_call_name f
      if fn = "" then none else some fn
  | .expr (.attr v a) =>
      let an := get_attribute_chain (.attr v a)
      if an = "" then none else some an
  | _ => none

/-- Insertion into the dependency set.  CPython accumulates a hash `set`
whose final `list(...)` order is unspecified; the embedding serializes in
first-insertion order (no claim inspects the order of `dependencies`). -/
def pyset_insert (s : List String) (x : String) : List String :=
  if x ∈ s then s else s ++ [x]

/-- `_extract_dependencies`: call targets and attribute chains over all
walked descendants, deduplicated. -/
def extract_dependencies (n : PyNode) : List String :=
  (walk [n]).foldl
    (fun acc c =>
      match dep_entry c with
      | some d => pyset_insert acc d
      | none => acc)
    []

/-!  `_extract_parameters`. -/

/-- One entry of `CodeElement.parameters` (a Python dict with fixed keys in
the source). -/
structure PyParam where
  name : String
  type : String
  required : Bool
  default : Option String
  deriving DecidableEq

/-- `_extract_parameters`: one record per positional argument; the trailing
`len(defaults)` arguments receive their default's rendering and
`required = False`.  The index arithmetic `len(args.args) - len(defaults)`
is Python integer arithmetic, hence carried over `Int`.  The inner `none`
fallback is unreachable (the guarded index is always in range) but keeps
the definition total. -/
def extract_parameters (args : PyArguments) : List PyParam :=
  args.args.enum.map fun p =>
    let i := p.1
    let a := p.2
    let base : PyParam :=
      { name := a.arg
        type := match a.ann with | some t => ann_string t | none => "Any"
        required := true
        default := none }
    if args.defaults.length ≠ 0 ∧
        ((args.args.length : Int) - (args.defaults.length : Int)) ≤ (i : Int) then
      { base with
        required := false
        default := some (match args.defaults.get?
            (((i : Int) - ((args.args.length : Int) - (args.defaults.length : Int))).toNat) with
          | some d => get_default_value d
          | none => "...") }
    else base

/-- `_extract_return_type`. -/
def extract_return_type (returns : Option PyExpr) : String :=
  match returns with
  | some r => ann_string r
  | none => "Any"

/-!  `_build_signature`. -/

/-- Rendering of one positional argument before defaults are applied:
`name` or `name: <type>`. -/
def render_arg (a : PyArg) : String :=
  match a.ann with
  | some t => a.arg ++ ": " ++ ann_string t
  | none => a.arg

/-- Rendering of `*args` / `**kwargs` with the given star marker. -/
def render_star_arg (star : String) (a : PyArg) : String :=
  match a.ann with
  | some t => star ++ a.arg ++ ": " ++ ann_string t
  | none => star ++ a.arg

/-- Python's `xs[j] += s` for an integer index `j` known to satisfy
`j < len(xs)`: a negative `j` wraps from the end.  (An index below
`-len(xs)` would raise `IndexError` in CPython; `_build_signature`'s guard
never produces one for argument records CPython builds, and the embedding
leaves the list unchanged there.) -/
def py_list_append_at (xs : List String) (j : Int) (s : String) : List String :=
  let k : Nat := if j < 0 then (j + xs.length).toNat else j.toNat
  xs.set k (xs.getD k "" ++ s)

/-- The `for i, default in enumerate(defaults)` loop of `_build_signature`:
append ` = <default>` to the rendered argument at index
`default_offset + i` whenever that index is below `len(args)`. -/
def apply_defaults_loop (offset : Int) : Nat → List PyExpr → List String → List String
  | _, [], acc => acc
  | i, d :: rest, acc =>
      let acc1 :=
        if offset + i < (acc.length : Int) then
          py_list_append_at acc (offset + i) (" = " ++ get_default_value d)
        else acc
      apply_defaults_loop offset (i + 1) rest acc1

/-- The rendered argument list of `_build_signature`: positional arguments
(with right-aligned defaults), then `*args`, then `**kwargs`. -/
def signature_args (args : PyArguments) : List String :=
  let base := args.args.map render_arg
  let withDefaults :=
    if args.defaults.isEmpty then base
    else apply_defaults_loop ((base.length : Int) - (args.defaults.length : Int)) 0
      args.defaults base
  let withV :=
    match args.vararg with
    | some v => withDefaults ++ [render_star_arg "*" v]
    | none => withDefaults
  match args.kwarg with
  | some k => withV ++ [render_star_arg "**" k]
  | none => withV

/-- `_build_signature`. -/
def build_signature (is_async : Bool) (nm : String) (args : PyArguments)
    (returns : Option PyExpr) : String :=
  let kw := if is_async then "async def" else "def"
  let sig := kw ++ " " ++ nm ++ "(" ++ ", ".intercalate (signature_args args) ++ ")"
  let sig2 :=
    match returns with
    | some r => sig ++ " -> " ++ ann_string r
    | none => sig
  sig2 ++ ":"

example :
    build_signature false "resize"
      { args := [{ arg := "self", ann := none },
                 { arg := "factor", ann := some (.name "float") }],
        vararg := none, kwarg := none, defaults := [.const "1.0"] } none
    = "def resize(self, factor: float = 1.0):" := by decide

example : determine_visibility "__init__" = "public" := by decide
example : determine_visibility "__x" = "private" := by decide
example : determine_visibility "_x" = "protected" := by decide
example : py_in_str "staticmethod" "not_a_staticmethod" = true := by decide
example : get_attribute_chain (.attr (.attr (.name "a") "b") "c") = "a.b.c" := by decide

/-!  The data model (`CodeElement`, `FileAnalysis`) and the extractor. -/

/-- The `CodeElement` dataclass.  `complexity_score` is a Python float that
is integer-valued by construction and is carried as `Nat`. -/
structure CodeElement where
  element_type : String
  name : String
  full_name : String
  signature : String
  docstring : String
  start_line : Nat
  end_line : Nat
  complexity_score : Nat
  dependencies : List String
  parameters : List PyParam
  return_type : String
  visibility : String
  is_async : Bool
  is_static : Bool
  is_abstract : Bool
  decorators : List String
  parent_class : Option String := none
  deriving DecidableEq

/-- The `FileAnalysis` dataclass. -/
structure FileAnalysis where
  file_path : String
  content : String
  content_hash : String
  elements : List CodeElement
  imports : List String
  global_variables : List String
  line_count : Nat
  file_size : Nat
  deriving DecidableEq

/-- The mutable fields of a `PythonASTParser` instance
(`self.current_class`, `self.imports`; `self.complexity_weights` is set in
`__init__` but never read). -/
structure ParserState where
  current_class : Option String
  imports : List String
  deriving DecidableEq

/-- `_extract_function`: assemble a `CodeElement` for a function or
async-function node; `current_class` is the instance's scope slot at the
time of the call, `r` this run's `str(node)` rendering (see
`get_name_r`). -/
def extract_function_r (r : PyExpr → String) (current_class : Option String) (is_async : Bool)
    (nm : String) (args : PyArguments) (body : List PyStmt)
    (decorator_list : List PyExpr) (returns : Option PyExpr)
    (lineno : Nat) (end_lineno : Option Nat) : CodeElement :=
  let node : PyStmt :=
    if is_async then .asyncFunctionDef nm args body decorator_list returns lineno end_lineno
    else .functionDef nm args body decorator_list returns lineno end_lineno
  let decorators := decorator_list.map (get_decorator_name_r r)
  { element_type := match current_class with | some _ => "method" | none => "function"
    name := nm
    full_name := match current_class with | some c => c ++ "." ++ nm | none => nm
    signature := build_signature is_async nm args returns
    docstring := get_docstring body
    start_line := lineno
    end_line := py_or_line end_lineno lineno
    complexity_score := calculate_complexity (.stmt node)
    dependencies := extract_dependencies (.stmt node)
    parameters := extract_parameters args
    return_type := extract_return_type returns
    visibility := determine_visibility nm
    is_async := is_async
    is_static := decorators.any (fun d => py_in_str "staticmethod" d)
    is_abstract := decorators.any (fun d => py_in_str "abstractmethod" d)
    decorators := decorators
    parent_class := current_class }

/-- `_extract_function` under the fixed stand-in rendering. -/
def extract_function : Option String → Bool → String → PyArguments → List PyStmt →
    List PyExpr → Option PyExpr → Nat → Option Nat → CodeElement :=
  extract_function_r str_of_node

/-- `_extract_class`: set the scope slot, assemble the class element, then
restore the slot (`parent_class` is left at its dataclass default `None`
for class elements); `r` is this run's `str(node)` rendering. -/
def extract_class_r (r : PyExpr → String) (st : ParserState) (nm : String) (bases : List PyExpr)
    (body : List PyStmt) (decorator_list : List PyExpr)
    (lineno : Nat) (end_lineno : Option Nat) : ParserState × CodeElement :=
  let old_class := st.current_class
  let st1 := { st with current_class := some nm }
  let base_classes := bases.map (get_name_r r)
  let decorators := decorator_list.map (get_decorator_name_r r)
  let element : CodeElement :=
    { element_type := "class"
      name := nm
      full_name := nm
      signature :=
        if base_classes ≠ [] then
          "class " ++ nm ++ "(" ++ ", ".intercalate base_classes ++ "):"
        else "class " ++ nm ++ ":"
      docstring := get_docstring body
      start_line := lineno
      end_line := py_or_line end_lineno lineno
      complexity_score := 1
      dependencies := base_classes
      parameters := []
      return_type := ""
      visibility := determine_visibility nm
      is_async := false
      is_static := false
      is_abstract := base_classes.contains "ABC"
        || decorators.any (fun d => py_in_str "abstract" d)
      decorators := decorators
      parent_class := none }
  let st2 := { st1 with current_class := old_class }
  (st2, element)

/-- `_extract_class` under the fixed stand-in rendering. -/
def extract_class : ParserState → String → List PyExpr → List PyStmt →
    List PyExpr → Nat → Option Nat → ParserState × CodeElement :=
  extract_class_r str_of_node

/-- `_extract_imports`: append the rendered entries of one import
statement to the instance's import list (`module or ""` treats a missing
module of a relative import as the empty string). -/
def extract_imports (imports : List String) : PyStmt → List String
  | .importStmt names => imports ++ names
  | .importFrom module names =>
      let m := match module with | some s => s | none => ""
      imports ++ names.map (fun nm => if nm = "*" then m ++ ".*" else m ++ "." ++ nm)
  | _ => imports

/-- The per-node dispatch of `parse_content`'s walk loop: function-like and
class nodes produce an element, import nodes extend the instance's import
list, every other node kind is ignored. -/
def parse_node_r (r : PyExpr → String) (st : ParserState) :
    PyNode → ParserState × Option CodeElement
  | .stmt (.functionDef nm args body decs ret l el) =>
      (st, some (extract_function_r r st.current_class false nm args body decs ret l el))
  | .stmt (.asyncFunctionDef nm args body decs ret l el) =>
      (st, some (extract_function_r r st.current_class true nm args body decs ret l el))
  | .stmt (.classDef nm bases body decs l el) =>
      let p := extract_class_r r st nm bases body decs l el
      (p.1, some p.2)
  | .stmt (.importStmt names) =>
      ({ st with imports := extract_imports st.imports (.importStmt names) }, none)
  | .stmt (.importFrom m names) =>
      ({ st with imports := extract_imports st.imports (.importFrom m names) }, none)
  | _ => (st, none)

/-- The walk-loop dispatch under the fixed stand-in rendering. -/
def parse_node : ParserState → PyNode → ParserState × Option CodeElement :=
  parse_node_r str_of_node

/-- The walk loop of `parse_content`: thread the instance state through the
walked nodes, collecting elements in visit order. -/
def parse_loop_r (r : PyExpr → String) :
    ParserState → List PyNode → ParserState × List CodeElement
  | st, [] => (st, [])
  | st, n :: rest =>
      let p := parse_node_r r st n
      let q := parse_loop_r r p.1 rest
      (q.1, match p.2 with | some e => e :: q.2 | none => q.2)

/-- The walk loop under the fixed stand-in rendering. -/
def parse_loop : ParserState → List PyNode → ParserState × List CodeElement :=
  parse_loop_r str_of_node

/-- A `SyntaxError` raised by `ast.parse`: message and offending
location. -/
structure SynErr where
  msg : String
  lineno : Nat
  deriving DecidableEq

/-- `str(e)` for a `SyntaxError` from `ast.parse` on a string: CPython
renders the message followed by the location. -/
def syntax_error_str (e : SynErr) : String :=
  e.msg ++ " (<unknown>, line " ++ toString e.lineno ++ ")"

/-- The exceptions `parse_content` / `parse_file` raise: `ValueError`
wrapping a syntax failure, `FileNotFoundError` for a missing path. -/
inductive PyErr : Type where
  | valueError (msg : String)
  | fileNotFound (msg : String)
  deriving DecidableEq

/-- A source text paired with the result CPython's `ast.parse` returns for
it (the stdlib parser is external to the repository). -/
structure PySource where
  content : String
  parsed : Except SynErr (List PyStmt)

/-- `parse_content`: on a syntax failure re-raise as `ValueError` (state
untouched — the reset happens after the `try`); otherwise reset the
instance state, run the walk loop, and assemble the `FileAnalysis`.
`sha256_hex` stands for `hashlib.sha256(...).hexdigest()` and `r` for this
run's `str(node)` rendering, both external to the embedding. -/
def parse_content_r (sha256_hex : String → String) (r : PyExpr → String)
    (st : ParserState) (src : PySource) (file_path : String) :
    ParserState × Except PyErr FileAnalysis :=
  match src.parsed with
  | .error e =>
      (st, .error (.valueError ("Syntax error in " ++ file_path ++ ": " ++ syntax_error_str e)))
  | .ok tree =>
      let st0 : ParserState := { current_class := none, imports := [] }
      let p := parse_loop_r r st0 (walk [.module tree])
      (p.1, .ok {
        file_path := file_path
        content := src.content
        content_hash := sha256_hex src.content
        elements := p.2
        imports := p.1.imports
        global_variables := []
        line_count := src.content.toList.count '\n' + 1
        file_size := src.content.utf8ByteSize })

/-- `parse_content` under the fixed stand-in rendering. -/
def parse_content (sha256_hex : String → String) :
    ParserState → PySource → String → ParserState × Except PyErr FileAnalysis :=
  parse_content_r sha256_hex str_of_node

/-- `parse_file`: raise `FileNotFoundError` when the path does not exist,
otherwise read the file (its content and parse result are `src`) and
delegate to `parse_content`. -/
def parse_file_r (sha256_hex : String → String) (r : PyExpr → String)
    (st : ParserState) (path_exists : Bool) (src : PySource) (file_path : String) :
    ParserState × Except PyErr FileAnalysis :=
  if path_exists then parse_content_r sha256_hex r st src file_path
  else (st, .error (.fileNotFound ("File not found: " ++ file_path)))

/-- `parse_file` under the fixed stand-in rendering. -/
def parse_file (sha256_hex : String → String) (st : ParserState)
    (path_exists : Bool) (src : PySource) (file_path : String) :
    ParserState × Except PyErr FileAnalysis :=
  parse_file_r sha256_hex str_of_node st path_exists src file_path

/-!  Concrete sources used by the witnesses and counterexamples below. -/

/-- An empty `ast.arguments` record. -/
def empty_args : PyArguments :=
  { args := [], vararg := none, kwarg := none, defaults := [] }

/-- Placeholder element for total list access in concrete statements. -/
def no_element : CodeElement :=
  { element_type := "", name := "", full_name := "", signature := "",
    docstring := "", start_line := 0, end_line := 0, complexity_score := 0,
    dependencies := [], parameters := [], return_type := "", visibility := "",
    is_async := false, is_static := false, is_abstract := false,
    decorators := [], parent_class := none }

/-- Placeholder analysis for total projection out of `Except`. -/
def no_analysis : FileAnalysis :=
  { file_path := "", content := "", content_hash := "", elements := [],
    imports := [], global_variables := [], line_count := 0, file_size := 0 }

/-- Project the success branch of a parse call. -/
def analysis_of (p : ParserState × Except PyErr FileAnalysis) : FileAnalysis :=
  match p.2 with
  | .ok fa => fa
  | .error _ => no_analysis

/-- A stand-in hash function for concrete evaluations (the claims never
constrain the hash's value, only that identical content hashes
identically). -/
def fake_hash : String → String := fun _ => "h"

/-- A freshly constructed `PythonASTParser` instance's state
(`__init__`). -/
def init_state : ParserState := { current_class := none, imports := [] }

/-- The argument record of `resize(self, factor: float = 1.0)`. -/
def resize_args : PyArguments :=
  { args := [{ arg := "self", ann := none },
             { arg := "factor", ann := some (.name "float") }],
    vararg := none, kwarg := none, defaults := [.const "1.0"] }

/-- The tree CPython parses for spec scenario B:
`class Widget:` / `    def resize(self, factor: float = 1.0):` /
`        pass`. -/
def widget_tree : List PyStmt :=
  [.classDef "Widget" []
     [.functionDef "resize" resize_args [.passStmt] [] none 2 (some 3)]
     [] 1 (some 3)]

/-- Scenario B's source text with its parse result. -/
def srcWidget : PySource :=
  { content := "class Widget:\n    def resize(self, factor: float = 1.0):\n        pass\n"
    parsed := .ok widget_tree }

/-- The tree CPython parses for
`@not_a_staticmethod` / `def g():` / `    pass`. -/
def decor_tree : List PyStmt :=
  [.functionDef "g" empty_args [.passStmt] [.name "not_a_staticmethod"] none 2 (some 3)]

/-- A function decorated with a name that merely contains
"staticmethod". -/
def srcDecor : PySource :=
  { content := "@not_a_staticmethod\ndef g():\n    pass\n"
    parsed := .ok decor_tree }

/-!  Characterizations of the walk loop: which element a node yields, and
which import entries it appends.  `parse_node` touches no state beyond the
scope slot and the import list, which these lemmas make explicit. -/

/-- The element one walked node yields, as a function of the scope slot
and the run's `str(node)` rendering alone. -/
def element_of_r (r : PyExpr → String) (cc : Option String) (n : PyNode) : Option CodeElement :=
  (parse_node_r r { current_class := cc, imports := [] } n).2

/-- The element one walked node yields under the fixed stand-in rendering,
as a function of the scope slot alone. -/
def element_of : Option String → PyNode → Option CodeElement :=
  element_of_r str_of_node

/-- The import entries one walked node appends: the alias names of a
direct import, the rendered `<module>.<name>` / `<module>.*` forms of a
from-import, nothing for any other node. -/
def import_entries_spec : PyNode → List String
  | .stmt (.importStmt names) => names
  | .stmt (.importFrom module names) =>
      let m := match module with | some s => s | none => ""
      names.map (fun nm => if nm = "*" then m ++ ".*" else m ++ "." ++ nm)
  | _ => []

theorem parse_node_r_elem (r : PyExpr → String) (st : ParserState) (n : PyNode) :
    (parse_node_r r st n).2 = element_of_r r st.current_class n := by
  cases n with
  | stmt s => cases s <;> rfl
  | module body => rfl
  | expr e => rfl
  | argsNode a => rfl
  | argNode a => rfl
  | handler b => rfl

theorem parse_node_elem (st : ParserState) (n : PyNode) :
    (parse_node st n).2 = element_of st.current_class n :=
  parse_node_r_elem str_of_node st n

theorem parse_node_r_cc (r : PyExpr → String) (st : ParserState) (n : PyNode) :
    (parse_node_r r st n).1.current_class = st.current_class := by
  cases n with
  | stmt s => cases s <;> rfl
  | module body => rfl
  | expr e => rfl
  | argsNode a => rfl
  | argNode a => rfl
  | handler b => rfl

theorem parse_node_cc (st : ParserState) (n : PyNode) :
    (parse_node st n).1.current_class = st.current_class :=
  parse_node_r_cc str_of_node st n

theorem parse_node_r_imports (r : PyExpr → String) (st : ParserState) (n : PyNode) :
    (parse_node_r r st n).1.imports = st.imports ++ import_entries_spec n := by
  cases n with
  | stmt s => cases s <;>
      simp [parse_node_r, extract_class_r, extract_imports, import_entries_spec]
  | module body => simp [parse_node_r, import_entries_spec]
  | expr e => simp [parse_node_r, import_entries_spec]
  | argsNode a => simp [parse_node_r, import_entries_spec]
  | argNode a => simp [parse_node_r, import_entries_spec]
  | handler b => simp [parse_node_r, import_entries_spec]

theorem parse_node_imports (st : ParserState) (n : PyNode) :
    (parse_node st n).1.imports = st.imports ++ import_entries_spec n :=
  parse_node_r_imports str_of_node st n

theorem parse_loop_r_elements (r : PyExpr → String) (st : ParserState) (q : List PyNode) :
    (parse_loop_r r st q).2 = q.filterMap (element_of_r r st.current_class) := by
  induction q generalizing st with
  | nil => rfl
  | cons n rest ih =>
      have hcc := parse_node_r_cc r st n
      have he := parse_node_r_elem r st n
      simp only [parse_loop_r]
      rw [ih (parse_node_r r st n).1, hcc, List.filterMap_cons, ← he]
      cases (parse_node_r r st n).2 <;> simp

theorem parse_loop_elements (st : ParserState) (q : List PyNode) :
    (parse_loop st q).2 = q.filterMap (element_of st.current_class) :=
  parse_loop_r_elements str_of_node st q

theorem parse_loop_r_cc (r : PyExpr → String) (st : ParserState) (q : List PyNode) :
    (parse_loop_r r st q).1.current_class = st.current_class := by
  induction q generalizing st with
  | nil => rfl
  | cons n rest ih =>
      simp only [parse_loop_r]
      rw [ih (parse_node_r r st n).1, parse_node_r_cc]

theorem parse_loop_cc (st : ParserState) (q : List PyNode) :
    (parse_loop st q).1.current_class = st.current_class :=
  parse_loop_r_cc str_of_node st q

theorem parse_loop_r_imports (r : PyExpr → String) (st : ParserState) (q : List PyNode) :
    (parse_loop_r r st q).1.imports = st.imports ++ (q.map import_entries_spec).flatten := by
  induction q generalizing st with
  | nil => simp [parse_loop_r]
  | cons n rest ih =>
      simp only [parse_loop_r]
      rw [ih (parse_node_r r st n).1, parse_node_r_imports]
      simp

theorem parse_loop_imports (st : ParserState) (q : List PyNode) :
    (parse_loop st q).1.imports = st.imports ++ (q.map import_entries_spec).flatten :=
  parse_loop_r_imports str_of_node st q

theorem parse_content_r_ok (sha256_hex : String → String) (r : PyExpr → String)
    (st : ParserState) (src : PySource) (path : String) (tree : List PyStmt)
    (hsrc : src.parsed = .ok tree) :
    parse_content_r sha256_hex r st src path =
      ((parse_loop_r r init_state (walk [.module tree])).1,
        .ok {
          file_path := path
          content := src.content
          content_hash := sha256_hex src.content
          elements := (walk [.module tree]).filterMap (element_of_r r none)
          imports := ((walk [.module tree]).map import_entries_spec).flatten
          global_variables := []
          line_count := src.content.toList.count '\n' + 1
          file_size := src.content.utf8ByteSize }) := by
  have he := parse_loop_r_elements r init_state (walk [.module tree])
  have hi := parse_loop_r_imports r init_state (walk [.module tree])
  simp only [parse_content_r, hsrc, init_state] at *
  rw [he, hi]
  rfl

theorem parse_content_ok (sha256_hex : String → String) (st : ParserState)
    (src : PySource) (path : String) (tree : List PyStmt)
    (hsrc : src.parsed = .ok tree) :
    parse_content sha256_hex st src path =
      ((parse_loop init_state (walk [.module tree])).1,
        .ok {
          file_path := path
          content := src.content
          content_hash := sha256_hex src.content
          elements := (walk [.module tree]).filterMap (element_of none)
          imports := ((walk [.module tree]).map import_entries_spec).flatten
          global_variables := []
          line_count := src.content.toList.count '\n' + 1
          file_size := src.content.utf8ByteSize }) :=
  parse_content_r_ok sha256_hex str_of_node st src path tree hsrc

/-- The elements of a successful parse are the walk's extractable nodes,
rendered with an empty scope slot (`ast.walk` never runs inside
`_extract_class`'s save/restore window). -/
theorem parse_content_elements (sha256_hex : String → String) (st st1 : ParserState)
    (src : PySource) (path : String) (tree : List PyStmt) (fa : FileAnalysis)
    (hsrc : src.parsed = .ok tree)
    (h : parse_content sha256_hex st src path = (st1, .ok fa)) :
    fa.elements = (walk [.module tree]).filterMap (element_of none) := by
  rw [parse_content_ok sha256_hex st src path tree hsrc] at h
  cases h
  rfl

/-- The imports of a successful parse are the rendered entries of every
walked import node, in walk order. -/
theorem parse_content_imports (sha256_hex : String → String) (st st1 : ParserState)
    (src : PySource) (path : String) (tree : List PyStmt) (fa : FileAnalysis)
    (hsrc : src.parsed = .ok tree)
    (h : parse_content sha256_hex st src path = (st1, .ok fa)) :
    fa.imports = ((walk [.module tree]).map import_entries_spec).flatten := by
  rw [parse_content_ok sha256_hex st src path tree hsrc] at h
  cases h
  rfl

/-!  A structurally recursive reading of the complexity count, proved equal
to the walk-based `_calculate_complexity`: the score adds, over all
descendant nodes, 1 per conditional/loop/try/with, `k - 1` per `k`-operand
boolean expression, and 1 per handler clause. -/

theorem nodeSize_mem_le (c : PyNode) (q : List PyNode) (h : c ∈ q) :
    nodeSize c ≤ sizes q :=
  List.single_le_sum (fun x _ => Nat.zero_le x) _ (List.mem_map_of_mem nodeSize h)

theorem nodeSize_child_lt (c n : PyNode) (h : c ∈ children n) :
    nodeSize c < nodeSize n := by
  have h1 := nodeSize_mem_le c (children n) h
  have h2 := nodeSize_children n
  omega

/-- Fuel-driven structural sum of `node_weight` over a subtree. -/
def complexity_spec_f : Nat → PyNode → Nat
  | 0, _ => 0
  | fuel + 1, n => node_weight n + ((children n).map (complexity_spec_f fuel)).sum

/-- Total `node_weight` of a node and all of its descendants, defined by
structural descent rather than by the breadth-first walk. -/
def complexity_spec (n : PyNode) : Nat := complexity_spec_f (nodeSize n) n

theorem complexity_spec_f_congr : ∀ (f₁ : Nat) (n : PyNode) (f₂ : Nat),
    nodeSize n ≤ f₁ → nodeSize n ≤ f₂ →
    complexity_spec_f f₁ n = complexity_spec_f f₂ n := by
  intro f₁
  induction f₁ with
  | zero =>
      intro n f₂ h1 _
      have := one_le_nodeSize n
      omega
  | succ f ih =>
      intro n f₂ h1 h2
      match f₂ with
      | 0 =>
          have := one_le_nodeSize n
          omega
      | f₂' + 1 =>
          simp only [complexity_spec_f]
          have hmap : (children n).map (complexity_spec_f f)
              = (children n).map (complexity_spec_f f₂') :=
            List.map_congr_left (fun c hc => by
              have := nodeSize_child_lt c n hc
              exact ih c f₂' (by omega) (by omega))
          rw [hmap]

theorem complexity_spec_unfold (n : PyNode) :
    complexity_spec n = node_weight n + ((children n).map complexity_spec).sum := by
  unfold complexity_spec
  have h1 : 1 ≤ nodeSize n := one_le_nodeSize n
  obtain ⟨f, hf⟩ : ∃ f, nodeSize n = f + 1 := ⟨nodeSize n - 1, by omega⟩
  rw [hf]
  simp only [complexity_spec_f]
  have hmap : (children n).map (complexity_spec_f f)
      = (children n).map (fun c => complexity_spec_f (nodeSize c) c) :=
    List.map_congr_left (fun c hc => by
      have := nodeSize_child_lt c n hc
      exact complexity_spec_f_congr f c (nodeSize c) (by omega) le_rfl)
  rw [hmap]

theorem walk_weight_sum : ∀ (fuel : Nat) (q : List PyNode), sizes q ≤ fuel →
    ((walk q).map node_weight).sum = (q.map complexity_spec).sum := by
  intro fuel
  induction fuel with
  | zero =>
      intro q hq
      match q with
      | [] => simp [walk_nil]
      | n :: rest =>
          have := one_le_nodeSize n
          simp only [sizes_cons] at hq
          omega
  | succ f ih =>
      intro q hq
      match q with
      | [] => simp [walk_nil]
      | n :: rest =>
          rw [walk_cons]
          simp only [List.map_cons, List.sum_cons]
          rw [ih (rest ++ children n) (by
            have hstep := sizes_step_lt n rest
            simp only [sizes_cons] at hq hstep
            omega)]
          simp only [List.map_append, List.sum_append]
          rw [complexity_spec_unfold n]
          omega

/-- `_calculate_complexity` equals one plus the structural weight sum. -/
theorem calculate_complexity_spec (n : PyNode) :
    calculate_complexity n = 1 + complexity_spec n := by
  unfold calculate_complexity
  rw [walk_weight_sum (sizes [n]) [n] le_rfl]
  simp

/-!  Nodes that produce elements, and subtrees free of them. -/

/-- Nodes for which the walk loop emits a `CodeElement`. -/
def extractable : PyNode → Bool
  | .stmt (.functionDef _ _ _ _ _ _ _) => true
  | .stmt (.asyncFunctionDef _ _ _ _ _ _ _) => true
  | .stmt (.classDef _ _ _ _ _ _) => true
  | _ => false

theorem element_of_eq_none (cc : Option String) (n : PyNode)
    (h : extractable n = false) : element_of cc n = none := by
  cases n with
  | stmt s => cases s <;> first | rfl | simp [extractable] at h
  | module body => rfl
  | expr e => rfl
  | argsNode a => rfl
  | argNode a => rfl
  | handler b => rfl

/-- Fuel-driven check that no strict descendant of a node produces an
element. -/
def no_defs_below_f : Nat → PyNode → Bool
  | 0, _ => false
  | fuel + 1, n => (children n).all (fun c => !extractable c && no_defs_below_f fuel c)

/-- No strict descendant of the node is a function/async-function/class
definition. -/
def no_defs_below (n : PyNode) : Bool := no_defs_below_f (nodeSize n) n

theorem list_all_congr {α : Type} (l : List α) (F G : α → Bool)
    (h : ∀ c ∈ l, F c = G c) : l.all F = l.all G := by
  induction l with
  | nil => rfl
  | cons a t ih =>
      simp only [List.all_cons]
      rw [h a (List.mem_cons_self a t),
        ih (fun c hc => h c (List.mem_cons_of_mem a hc))]

theorem no_defs_below_f_congr : ∀ (f₁ : Nat) (n : PyNode) (f₂ : Nat),
    nodeSize n ≤ f₁ → nodeSize n ≤ f₂ →
    no_defs_below_f f₁ n = no_defs_below_f f₂ n := by
  intro f₁
  induction f₁ with
  | zero =>
      intro n f₂ h1 _
      have := one_le_nodeSize n
      omega
  | succ f ih =>
      intro n f₂ h1 h2
      match f₂ with
      | 0 =>
          have := one_le_nodeSize n
          omega
      | f₂' + 1 =>
          simp only [no_defs_below_f]
          apply list_all_congr
          intro c hc
          have := nodeSize_child_lt c n hc
          rw [ih c f₂' (by omega) (by omega)]

theorem no_defs_below_unfold (n : PyNode) :
    no_defs_below n = (children n).all (fun c => !extractable c && no_defs_below c) := by
  unfold no_defs_below
  have h1 : 1 ≤ nodeSize n := one_le_nodeSize n
  obtain ⟨f, hf⟩ : ∃ f, nodeSize n = f + 1 := ⟨nodeSize n - 1, by omega⟩
  rw [hf]
  simp only [no_defs_below_f]
  apply list_all_congr
  intro c hc
  have := nodeSize_child_lt c n hc
  rw [no_defs_below_f_congr f c (nodeSize c) (by omega) le_rfl]

/-- Over a queue whose strict descendants contain no definitions, the walk
adds nothing: the elements are exactly those of the queue itself, in queue
order. -/
theorem walk_filterMap_clean (cc : Option String) :
    ∀ (fuel : Nat) (q : List PyNode), sizes q ≤ fuel →
    (∀ n ∈ q, no_defs_below n = true) →
    (walk q).filterMap (element_of cc) = q.filterMap (element_of cc) := by
  intro fuel
  induction fuel with
  | zero =>
      intro q hq _
      match q with
      | [] => simp [walk_nil]
      | n :: rest =>
          have := one_le_nodeSize n
          simp only [sizes_cons] at hq
          omega
  | succ f ih =>
      intro q hq hclean
      match q with
      | [] => simp [walk_nil]
      | n :: rest =>
          have hn := hclean n (List.mem_cons_self n rest)
          rw [no_defs_below_unfold] at hn
          rw [walk_cons]
          rw [List.filterMap_cons, List.filterMap_cons]
          have hrec : ∀ m ∈ rest ++ children n, no_defs_below m = true := by
            intro m hm
            rcases List.mem_append.mp hm with hm | hm
            · exact hclean m (List.mem_cons_of_mem n hm)
            · have := List.all_eq_true.mp hn m hm
              exact (Bool.and_eq_true_iff.mp this).2
          have hsz : sizes (rest ++ children n) ≤ f := by
            have := sizes_step_lt n rest
            simp only [sizes_cons] at hq
            simp only [sizes_cons] at this
            omega
          rw [ih (rest ++ children n) hsz hrec]
          rw [List.filterMap_append]
          have hnil : (children n).filterMap (element_of cc) = [] := by
            rw [List.filterMap_eq_nil_iff]
            intro c hcmem
            have := List.all_eq_true.mp hn c hcmem
            exact element_of_eq_none cc c
              (by simpa using (Bool.and_eq_true_iff.mp this).1)
          rw [hnil, List.append_nil]

/-!  Case analysis for element-producing nodes. -/

/-- Every element a walked node yields comes from `_extract_function` (with
the scope slot as parent) or from `_extract_class`. -/
theorem element_of_cases (cc : Option String) (n : PyNode) (e : CodeElement)
    (h : element_of cc n = some e) :
    (∃ nm args body decs ret l el,
        n = .stmt (.functionDef nm args body decs ret l el) ∧
        e = extract_function cc false nm args body decs ret l el) ∨
    (∃ nm args body decs ret l el,
        n = .stmt (.asyncFunctionDef nm args body decs ret l el) ∧
        e = extract_function cc true nm args body decs ret l el) ∨
    (∃ nm bases body decs l el,
        n = .stmt (.classDef nm bases body decs l el) ∧
        e = (extract_class { current_class := cc, imports := [] } nm bases body decs l el).2) := by
  cases n with
  | stmt s =>
      cases s with
      | functionDef nm args body decs ret l el =>
          exact Or.inl ⟨nm, args, body, decs, ret, l, el, rfl, (Option.some.inj h).symm⟩
      | asyncFunctionDef nm args body decs ret l el =>
          exact Or.inr (Or.inl ⟨nm, args, body, decs, ret, l, el, rfl, (Option.some.inj h).symm⟩)
      | classDef nm bases body decs l el =>
          exact Or.inr (Or.inr ⟨nm, bases, body, decs, l, el, rfl, (Option.some.inj h).symm⟩)
      | ifStmt t b o => simp [element_of, element_of_r, parse_node_r] at h
      | forStmt it b o => simp [element_of, element_of_r, parse_node_r] at h
      | whileStmt t b o => simp [element_of, element_of_r, parse_node_r] at h
      | tryStmt b hs o f => simp [element_of, element_of_r, parse_node_r] at h
      | withStmt b => simp [element_of, element_of_r, parse_node_r] at h
      | importStmt names => simp [element_of, element_of_r, parse_node_r] at h
      | importFrom m names => simp [element_of, element_of_r, parse_node_r] at h
      | exprStmt e2 => simp [element_of, element_of_r, parse_node_r] at h
      | returnStmt e2 => simp [element_of, element_of_r, parse_node_r] at h
      | passStmt => simp [element_of, element_of_r, parse_node_r] at h
  | module body => simp [element_of, element_of_r, parse_node_r] at h
  | expr e2 => simp [element_of, element_of_r, parse_node_r] at h
  | argsNode a => simp [element_of, element_of_r, parse_node_r] at h
  | argNode a => simp [element_of, element_of_r, parse_node_r] at h
  | handler b => simp [element_of, element_of_r, parse_node_r] at h

theorem extract_function_parent (cc : Option String) (is_async : Bool)
    (nm : String) (args : PyArguments) (body : List PyStmt)
    (decs : List PyExpr) (ret : Option PyExpr) (l : Nat) (el : Option Nat) :
    (extract_function cc is_async nm args body decs ret l el).parent_class = cc := rfl

theorem extract_function_type (cc : Option String) (is_async : Bool)
    (nm : String) (args : PyArguments) (body : List PyStmt)
    (decs : List PyExpr) (ret : Option PyExpr) (l : Nat) (el : Option Nat) :
    (extract_function cc is_async nm args body decs ret l el).element_type
      = match cc with | some _ => "method" | none => "function" := rfl

theorem extract_class_parent (st : ParserState) (nm : String) (bases : List PyExpr)
    (body : List PyStmt) (decs : List PyExpr) (l : Nat) (el : Option Nat) :
    (extract_class st nm bases body decs l el).2.parent_class = none := rfl

theorem extract_class_type (st : ParserState) (nm : String) (bases : List PyExpr)
    (body : List PyStmt) (decs : List PyExpr) (l : Nat) (el : Option Nat) :
    (extract_class st nm bases body decs l el).2.element_type = "class" := rfl

/-!  Claim C7. -/

/-- C7: for every CodeElement produced by a successful parse, parent_class
is present (not None) exactly when element_type is "method"; every class
and function element has parent_class absent. -/
theorem C7_parent_class_iff_method (sha256_hex : String → String)
    (st st1 : ParserState) (src : PySource) (path : String)
    (tree : List PyStmt) (fa : FileAnalysis)
    (hsrc : src.parsed = .ok tree)
    (h : parse_content sha256_hex st src path = (st1, .ok fa)) :
    ∀ e ∈ fa.elements, (e.parent_class ≠ none ↔ e.element_type = "method") := by
  intro e he
  rw [parse_content_elements sha256_hex st st1 src path tree fa hsrc h] at he
  obtain ⟨n, _, hne⟩ := List.mem_filterMap.mp he
  rcases element_of_cases none n e hne with
    ⟨nm, args, body, decs, ret, l, el, _, hee⟩ |
    ⟨nm, args, body, decs, ret, l, el, _, hee⟩ |
    ⟨nm, bases, body, decs, l, el, _, hee⟩ <;> subst hee
  · rw [extract_function_parent, extract_function_type]
    simp
  · rw [extract_function_parent, extract_function_type]
    simp
  · rw [extract_class_parent, extract_class_type]
    simp

/-- Witness for C7 at the Widget source: the "resize" element (index 1). -/
theorem C7_witness :
    (((analysis_of (parse_content fake_hash init_state srcWidget "widget.py")).elements.getD 1
        no_element).parent_class ≠ none ↔
      ((analysis_of (parse_content fake_hash init_state srcWidget "widget.py")).elements.getD 1
        no_element).element_type = "method") :=
  C7_parent_class_iff_method fake_hash init_state
    (parse_content fake_hash init_state srcWidget "widget.py").1 srcWidget "widget.py"
    widget_tree (analysis_of (parse_content fake_hash init_state srcWidget "widget.py"))
    rfl rfl _ (by decide)

/-!  Claim C9. -/

/-- C9: for every extracted function or method element, is_static holds
exactly when some decorator's rendered name contains "staticmethod" as a
substring, and is_abstract exactly when one contains "abstractmethod" —
substring containment, not equality. -/
theorem C9_static_abstract_substring (sha256_hex : String → String)
    (st st1 : ParserState) (src : PySource) (path : String)
    (tree : List PyStmt) (fa : FileAnalysis)
    (hsrc : src.parsed = .ok tree)
    (h : parse_content sha256_hex st src path = (st1, .ok fa)) :
    ∀ e ∈ fa.elements, (e.element_type = "function" ∨ e.element_type = "method") →
      ((e.is_static = true ↔ ∃ d ∈ e.decorators, py_in_str "staticmethod" d = true) ∧
       (e.is_abstract = true ↔ ∃ d ∈ e.decorators, py_in_str "abstractmethod" d = true)) := by
  intro e he htype
  rw [parse_content_elements sha256_hex st st1 src path tree fa hsrc h] at he
  obtain ⟨n, _, hne⟩ := List.mem_filterMap.mp he
  rcases element_of_cases none n e hne with
    ⟨nm, args, body, decs, ret, l, el, _, hee⟩ |
    ⟨nm, args, body, decs, ret, l, el, _, hee⟩ |
    ⟨nm, bases, body, decs, l, el, _, hee⟩ <;> subst hee
  · constructor <;>
      simp [extract_function, extract_function_r, List.any_eq_true]
  · constructor <;>
      simp [extract_function, extract_function_r, List.any_eq_true]
  · rw [extract_class_type] at htype
    simp at htype

/-- Witness for C9: a decorator named "not_a_staticmethod" (which merely
contains "staticmethod") makes the extracted function element static. -/
theorem C9_witness :
    ((analysis_of (parse_content fake_hash init_state srcDecor "d.py")).elements.getD 0
      no_element).is_static = true :=
  ((C9_static_abstract_substring fake_hash init_state
      (parse_content fake_hash init_state srcDecor "d.py").1 srcDecor "d.py"
      decor_tree (analysis_of (parse_content fake_hash init_state srcDecor "d.py"))
      rfl rfl _ (by decide) (Or.inl (by decide))).1).mpr
    ⟨"not_a_staticmethod", by decide, by decide⟩

/-!  Claim C1 (a code bug). -/

/-- C1 (code bug in the source): scenario B's Widget source yields two
elements, but the second is a FUNCTION element with full_name "resize" and
no parent_class — never the claimed method element "Widget.resize".
`ast.walk` is a flat breadth-first iteration and `_extract_class` restores
`self.current_class` before returning, so the scope slot is always `None`
by the time the member `FunctionDef` is visited, contradicting the code's
own scope-tracking comments and the `CodeElement` "method" documentation.
The parameter list of the member is extracted as the claim states. -/
theorem C1_widget_scope_bug :
    ((analysis_of (parse_content fake_hash init_state srcWidget "widget.py")).elements.map
        (fun e => (e.element_type, e.full_name, e.parent_class)) =
      [("class", "Widget", none), ("function", "resize", none)]) ∧
    ((analysis_of (parse_content fake_hash init_state srcWidget "widget.py")).elements.getD 1
        no_element).parameters =
      [{ name := "self", type := "Any", required := true, default := none },
       { name := "factor", type := "float", required := false, default := some "1.0" }] := by
  constructor <;> decide

/-!  Claim C5. -/

/-- The tree CPython parses for spec scenario C:
`def process(a, b):` / `    if a and b:` / `        try:` /
`            return a` / `        except ValueError:` /
`            return b`. -/
def scenario_c_tree : List PyStmt :=
  [.functionDef "process"
     { args := [{ arg := "a", ann := none }, { arg := "b", ann := none }],
       vararg := none, kwarg := none, defaults := [] }
     [.ifStmt (.boolOp [.name "a", .name "b"])
        [.tryStmt [.returnStmt (some (.name "a"))]
           [[.returnStmt (some (.name "b"))]] [] []]
        []]
     [] none 1 (some 6)]

/-- Scenario C's source text with its parse result. -/
def srcScenC : PySource :=
  { content := "def process(a, b):\n    if a and b:\n        try:\n            return a\n        except ValueError:\n            return b\n"
    parsed := .ok scenario_c_tree }

/-- C5: the complexity score of every extracted callable is 1.0 plus, over
all descendant nodes, 1 per conditional/loop/try/with, k-1 per k-operand
boolean expression, and 1 per handler clause (`complexity_spec`, defined by
structural descent); in particular scenario C's function — one conditional
with a two-operand boolean-AND test and one exception-handling block with
one handler — scores 5.0. -/
theorem C5_complexity :
    (∀ (cc : Option String) (is_async : Bool) (nm : String) (args : PyArguments)
        (body : List PyStmt) (decs : List PyExpr) (ret : Option PyExpr)
        (l : Nat) (el : Option Nat),
      (extract_function cc is_async nm args body decs ret l el).complexity_score =
        1 + complexity_spec (.stmt (if is_async then
            PyStmt.asyncFunctionDef nm args body decs ret l el
          else PyStmt.functionDef nm args body decs ret l el))) ∧
    ((analysis_of (parse_content fake_hash init_state srcScenC "scenario_c.py")).elements.map
        (fun e => e.complexity_score) = [5]) := by
  constructor
  · intro cc is_async nm args body decs ret l el
    have hproj : (extract_function cc is_async nm args body decs ret l el).complexity_score
        = calculate_complexity (.stmt (if is_async then
            PyStmt.asyncFunctionDef nm args body decs ret l el
          else PyStmt.functionDef nm args body decs ret l el)) := rfl
    rw [hproj, calculate_complexity_spec]
  · decide

/-!  Claim C2. -/

/-- The tree CPython parses for
`def outer():` / `    def inner():` / `        pass` /
`def late():` / `    pass`. -/
def nested_tree : List PyStmt :=
  [.functionDef "outer" empty_args
     [.functionDef "inner" empty_args [.passStmt] [] none 2 (some 3)]
     [] none 1 (some 3),
   .functionDef "late" empty_args [.passStmt] [] none 4 (some 5)]

/-- A nested declaration followed by a further top-level declaration. -/
def srcNested : PySource :=
  { content := "def outer():\n    def inner():\n        pass\ndef late():\n    pass\n"
    parsed := .ok nested_tree }

/-- C2 is false as stated: a source with a declaration nested inside
another that is followed by a further top-level declaration yields elements
in breadth-first order [outer line 1, late line 4, inner line 2], which is
not ordered by non-decreasing start_line. -/
theorem C2_counterexample :
    ((analysis_of (parse_content fake_hash init_state srcNested "nested.py")).elements.map
        (fun e => e.start_line) = [1, 4, 2]) ∧
    ¬ List.Chain' (· ≤ ·)
      ((analysis_of (parse_content fake_hash init_state srcNested "nested.py")).elements.map
        (fun e => e.start_line)) := by
  refine ⟨by decide, ?_⟩
  intro hch
  rw [show (analysis_of (parse_content fake_hash init_state srcNested "nested.py")).elements.map
      (fun e => e.start_line) = [1, 4, 2] from by decide] at hch
  rw [List.chain'_cons, List.chain'_pair] at hch
  omega

/-- The start line a statement would contribute as an element (its
`lineno`), for the element-producing statement kinds. -/
def stmt_lineno : PyStmt → Option Nat
  | .functionDef _ _ _ _ _ l _ => some l
  | .asyncFunctionDef _ _ _ _ _ l _ => some l
  | .classDef _ _ _ _ l _ => some l
  | _ => none

theorem start_lines_filterMap (body : List PyStmt) :
    (((body.map PyNode.stmt).filterMap (element_of none)).map (fun e => e.start_line))
      = body.filterMap stmt_lineno := by
  induction body with
  | nil => rfl
  | cons s t ih =>
      have ih2 : ((t.filterMap (element_of_r str_of_node none ∘ PyNode.stmt)).map
            (fun e => e.start_line))
          = t.filterMap stmt_lineno := by
        rw [← List.filterMap_map]
        exact ih
      cases s <;>
        simp [element_of, element_of_r, parse_node_r, stmt_lineno, List.filterMap_cons,
          extract_function_r, extract_class_r, List.filterMap_map, ih2]

/-- C2 amended: the elements are emitted in breadth-first walk order, so
the start_line ordering holds for sources whose extracted declarations are
all at module top level (no function/class nested below another statement),
given that the top-level declarations appear in non-decreasing line order —
but not in general (see the counterexample). -/
theorem C2_amended_sorted (sha256_hex : String → String)
    (st st1 : ParserState) (src : PySource) (path : String)
    (tree : List PyStmt) (fa : FileAnalysis)
    (hsrc : src.parsed = .ok tree)
    (h : parse_content sha256_hex st src path = (st1, .ok fa))
    (hflat : ∀ s ∈ tree, no_defs_below (.stmt s) = true)
    (hsort : List.Chain' (· ≤ ·) (tree.filterMap stmt_lineno)) :
    List.Chain' (· ≤ ·) (fa.elements.map (fun e => e.start_line)) := by
  rw [parse_content_elements sha256_hex st st1 src path tree fa hsrc h]
  have hw : walk [.module tree] = .module tree :: walk (tree.map .stmt) := by
    rw [walk_cons]
    simp [children]
  rw [hw, List.filterMap_cons]
  have hmod : element_of none (.module tree) = none := rfl
  rw [hmod]
  have hmem : ∀ n ∈ tree.map PyNode.stmt, no_defs_below n = true := by
    intro n hn
    obtain ⟨s, hs, rfl⟩ := List.mem_map.mp hn
    exact hflat s hs
  rw [walk_filterMap_clean none (sizes (tree.map .stmt)) (tree.map .stmt) le_rfl hmem]
  rw [start_lines_filterMap]
  exact hsort

/-- Two flat top-level functions, lines 1 and 3. -/
def flat_tree : List PyStmt :=
  [.functionDef "a" empty_args [.passStmt] [] none 1 (some 2),
   .functionDef "b" empty_args [.passStmt] [] none 3 (some 4)]

/-- A source with only top-level declarations. -/
def srcFlat : PySource :=
  { content := "def a():\n    pass\ndef b():\n    pass\n"
    parsed := .ok flat_tree }

/-- Witness for the amended C2 at a flat two-function source. -/
theorem C2_amended_witness :
    List.Chain' (· ≤ ·)
      ((analysis_of (parse_content fake_hash init_state srcFlat "flat.py")).elements.map
        (fun e => e.start_line)) :=
  C2_amended_sorted fake_hash init_state
    (parse_content fake_hash init_state srcFlat "flat.py").1 srcFlat "flat.py"
    flat_tree (analysis_of (parse_content fake_hash init_state srcFlat "flat.py"))
    rfl rfl (by decide)
    (by
      rw [show flat_tree.filterMap stmt_lineno = [1, 3] from by decide]
      exact List.chain'_pair.mpr (by omega))

/-!  Claim C3. -/

/-- The tree CPython parses for `def f():` / `    import os`. -/
def fn_import_tree : List PyStmt :=
  [.functionDef "f" empty_args [.importStmt ["os"]] [] none 1 (some 2)]

/-- A source whose only import declaration is nested inside a function
body. -/
def srcFnImport : PySource :=
  { content := "def f():\n    import os\n"
    parsed := .ok fn_import_tree }

/-- C3 is false as stated: this source has no module-level import
declaration (the claim therefore demands an empty imports list), yet the
walk records the function-nested `import os`. -/
theorem C3_counterexample :
    ((fn_import_tree.map (fun s => import_entries_spec (.stmt s))).flatten = []) ∧
    (analysis_of (parse_content fake_hash init_state srcFnImport "m.py")).imports = ["os"] := by
  constructor <;> decide

/-- C3 amended: the imports list contains exactly one entry per import
declaration anywhere in the tree — nested declarations included — rendered
as the module's dotted name for a direct import and `<module>.<name>` /
`<module>.*` per imported name for a from-import, in breadth-first walk
order with duplicates preserved. -/
theorem C3_amended_imports (sha256_hex : String → String)
    (st st1 : ParserState) (src : PySource) (path : String)
    (tree : List PyStmt) (fa : FileAnalysis)
    (hsrc : src.parsed = .ok tree)
    (h : parse_content sha256_hex st src path = (st1, .ok fa)) :
    fa.imports = ((walk [.module tree]).map import_entries_spec).flatten :=
  parse_content_imports sha256_hex st st1 src path tree fa hsrc h

/-- Witness for the amended C3: the nested `import os` is the sole entry. -/
theorem C3_amended_witness :
    (analysis_of (parse_content fake_hash init_state srcFnImport "m.py")).imports = ["os"] :=
  (C3_amended_imports fake_hash init_state
    (parse_content fake_hash init_state srcFnImport "m.py").1 srcFnImport "m.py"
    fn_import_tree (analysis_of (parse_content fake_hash init_state srcFnImport "m.py"))
    rfl rfl).trans (by decide)

/-!  Claim C4. -/

theorem chars_contain_here (n suf : List Char) : chars_contain n (n ++ suf) = true := by
  cases n with
  | nil =>
      cases suf with
      | nil => rfl
      | cons c t => simp [chars_contain, List.isPrefixOf]
  | cons c t =>
      simp only [chars_contain, List.cons_append, Bool.or_eq_true]
      exact Or.inl (List.isPrefixOf_iff_prefix.mpr (by simp))

theorem chars_contain_append (pre n suf : List Char) :
    chars_contain n (pre ++ (n ++ suf)) = true := by
  induction pre with
  | nil => simpa using chars_contain_here n suf
  | cons c p ih =>
      simp only [List.cons_append, chars_contain, Bool.or_eq_true]
      exact Or.inr ih

/-- Python's `n in (pre + n + suf)` always holds. -/
theorem py_in_str_append (pre n suf : String) :
    py_in_str n (pre ++ (n ++ suf)) = true := by
  unfold py_in_str
  have h : (pre ++ (n ++ suf)).toList = pre.toList ++ (n.toList ++ suf.toList) := rfl
  rw [h]
  exact chars_contain_append _ _ _

/-- C4: a source that cannot be parsed fails with the ValueError kind whose
non-empty message carries the parser's message and offending line, and no
FileAnalysis is produced; a nonexistent path fails with the distinct
FileNotFoundError kind; the two kinds are distinguishable constructors. -/
theorem C4_error_kinds (sha256_hex : String → String) (st st2 : ParserState)
    (src src2 : PySource) (path : String) (e : SynErr)
    (hsrc : src.parsed = .error e) :
    ((parse_content sha256_hex st src path).2 =
        .error (.valueError ("Syntax error in " ++ path ++ ": " ++ syntax_error_str e)) ∧
      ("Syntax error in " ++ path ++ ": " ++ syntax_error_str e) ≠ "" ∧
      py_in_str e.msg ("Syntax error in " ++ path ++ ": " ++ syntax_error_str e) = true ∧
      py_in_str (toString e.lineno) ("Syntax error in " ++ path ++ ": " ++ syntax_error_str e) = true ∧
      (parse_file sha256_hex st2 false src2 path).2 =
        .error (.fileNotFound ("File not found: " ++ path)) ∧
      ∀ m m' : String, PyErr.valueError m ≠ PyErr.fileNotFound m') := by
  refine ⟨?_, ?_, ?_, ?_, ?_, ?_⟩
  · simp [parse_content, parse_content_r, hsrc]
  · intro hmsg
    have hlen : ("Syntax error in " ++ path ++ ": " ++ syntax_error_str e).length = 0 := by
      rw [hmsg]
      rfl
    rw [String.length_append, String.length_append, String.length_append] at hlen
    have h16 : "Syntax error in ".length = 16 := by decide
    omega
  · have := py_in_str_append ("Syntax error in " ++ path ++ ": ") e.msg
      (" (<unknown>, line " ++ toString e.lineno ++ ")")
    simpa only [syntax_error_str, String.append_assoc] using this
  · have := py_in_str_append
      ("Syntax error in " ++ path ++ ": " ++ e.msg ++ " (<unknown>, line ")
      (toString e.lineno) ")"
    simpa only [syntax_error_str, String.append_assoc] using this
  · simp [parse_file, parse_file_r]
  · intro m m' hcontra
    cases hcontra

/-- A syntactically invalid source: `def f(:` (CPython raises
SyntaxError("invalid syntax") at line 1). -/
def srcBad : PySource :=
  { content := "def f(:\n"
    parsed := .error { msg := "invalid syntax", lineno := 1 } }

/-- Witness for C4 at a concrete unparseable source and a concrete missing
path. -/
theorem C4_witness :
    (parse_content fake_hash init_state srcBad "bad.py").2 =
      .error (.valueError ("Syntax error in " ++ "bad.py" ++ ": "
        ++ syntax_error_str { msg := "invalid syntax", lineno := 1 })) ∧
    (parse_file fake_hash init_state false srcBad "bad.py").2 =
      .error (.fileNotFound ("File not found: " ++ "bad.py")) :=
  ⟨(C4_error_kinds fake_hash init_state init_state srcBad srcBad "bad.py"
      { msg := "invalid syntax", lineno := 1 } rfl).1,
   (C4_error_kinds fake_hash init_state init_state srcBad srcBad "bad.py"
      { msg := "invalid syntax", lineno := 1 } rfl).2.2.2.2.1⟩

/-!  Claim C8.  The extractor reaches `str(node)` — an object repr carrying
the run's memory addresses — through `_get_name` (class bases that are not
a plain or dotted name) and `_get_decorator_name` (decorators that are not
a name, dotted name or call).  Two sequential parses of byte-identical text
build fresh AST objects, so CPython does not guarantee those rendered
strings coincide between the calls; the run's rendering is therefore a
parameter, and the cross-call identity claimed by C8 only holds for sources
that never reach the fallback. -/

/-- The rendering of a class base avoids the `str(node)` fallback. -/
def base_renderable : PyExpr → Bool
  | .name _ => true
  | .attr _ _ => true
  | _ => false

/-- The rendering of a decorator avoids the `str(node)` fallback. -/
def dec_renderable : PyExpr → Bool
  | .name _ => true
  | .attr _ _ => true
  | .call _ _ => true
  | _ => false

/-- The node's own element never consults `str(node)`. -/
def node_repr_ok : PyNode → Bool
  | .stmt (.functionDef _ _ _ decs _ _ _) => decs.all dec_renderable
  | .stmt (.asyncFunctionDef _ _ _ decs _ _ _) => decs.all dec_renderable
  | .stmt (.classDef _ bases _ decs _ _) =>
      bases.all base_renderable && decs.all dec_renderable
  | _ => true

theorem get_name_r_congr (r1 r2 : PyExpr → String) (b : PyExpr)
    (h : base_renderable b = true) : get_name_r r1 b = get_name_r r2 b := by
  cases b <;> first | rfl | simp [base_renderable] at h

theorem get_decorator_name_r_congr (r1 r2 : PyExpr → String) (d : PyExpr)
    (h : dec_renderable d = true) :
    get_decorator_name_r r1 d = get_decorator_name_r r2 d := by
  cases d <;> first | rfl | simp [dec_renderable] at h

theorem extract_function_r_congr (r1 r2 : PyExpr → String) (cc : Option String)
    (is_async : Bool) (nm : String) (args : PyArguments) (body : List PyStmt)
    (decs : List PyExpr) (ret : Option PyExpr) (l : Nat) (el : Option Nat)
    (h : decs.all dec_renderable = true) :
    extract_function_r r1 cc is_async nm args body decs ret l el =
      extract_function_r r2 cc is_async nm args body decs ret l el := by
  have hd : decs.map (get_decorator_name_r r1) = decs.map (get_decorator_name_r r2) :=
    List.map_congr_left fun d hdm =>
      get_decorator_name_r_congr r1 r2 d (List.all_eq_true.mp h d hdm)
  simp only [extract_function_r]
  rw [hd]

theorem extract_class_r_congr (r1 r2 : PyExpr → String) (st : ParserState)
    (nm : String) (bases : List PyExpr) (body : List PyStmt) (decs : List PyExpr)
    (l : Nat) (el : Option Nat)
    (hb : bases.all base_renderable = true) (hd : decs.all dec_renderable = true) :
    extract_class_r r1 st nm bases body decs l el =
      extract_class_r r2 st nm bases body decs l el := by
  have h1 : bases.map (get_name_r r1) = bases.map (get_name_r r2) :=
    List.map_congr_left fun b hbm =>
      get_name_r_congr r1 r2 b (List.all_eq_true.mp hb b hbm)
  have h2 : decs.map (get_decorator_name_r r1) = decs.map (get_decorator_name_r r2) :=
    List.map_congr_left fun d hdm =>
      get_decorator_name_r_congr r1 r2 d (List.all_eq_true.mp hd d hdm)
  simp only [extract_class_r]
  rw [h1, h2]

theorem parse_node_r_congr (r1 r2 : PyExpr → String) (st : ParserState) (n : PyNode)
    (h : node_repr_ok n = true) : parse_node_r r1 st n = parse_node_r r2 st n := by
  cases n with
  | stmt s =>
      cases s with
      | functionDef nm args body decs ret l el =>
          simp only [parse_node_r]
          rw [extract_function_r_congr r1 r2 st.current_class false nm args body decs ret l el
            (by simpa [node_repr_ok] using h)]
      | asyncFunctionDef nm args body decs ret l el =>
          simp only [parse_node_r]
          rw [extract_function_r_congr r1 r2 st.current_class true nm args body decs ret l el
            (by simpa [node_repr_ok] using h)]
      | classDef nm bases body decs l el =>
          have h2 := h
          simp only [node_repr_ok, Bool.and_eq_true_iff] at h2
          simp only [parse_node_r]
          rw [extract_class_r_congr r1 r2 st nm bases body decs l el h2.1 h2.2]
      | ifStmt t b o => rfl
      | forStmt it b o => rfl
      | whileStmt t b o => rfl
      | tryStmt b hs o f => rfl
      | withStmt b => rfl
      | importStmt names => rfl
      | importFrom m names => rfl
      | exprStmt e => rfl
      | returnStmt e => rfl
      | passStmt => rfl
  | module body => rfl
  | expr e => rfl
  | argsNode a => rfl
  | argNode a => rfl
  | handler b => rfl

theorem parse_loop_r_congr (r1 r2 : PyExpr → String) :
    ∀ (q : List PyNode) (st : ParserState), (∀ n ∈ q, node_repr_ok n = true) →
    parse_loop_r r1 st q = parse_loop_r r2 st q := by
  intro q
  induction q with
  | nil => intro st _; rfl
  | cons n rest ih =>
      intro st hq
      simp only [parse_loop_r]
      rw [parse_node_r_congr r1 r2 st n (hq n (List.mem_cons_self n rest)),
        ih (parse_node_r r2 st n).1 (fun m hm => hq m (List.mem_cons_of_mem n hm))]

/-- Fuel-driven check that no node of the subtree consults `str(node)`. -/
def repr_free_f : Nat → PyNode → Bool
  | 0, _ => false
  | fuel + 1, n => node_repr_ok n && (children n).all (repr_free_f fuel)

/-- No node of the subtree consults `str(node)`: every class base is a
plain or dotted name and every decorator a plain/dotted name or call. -/
def repr_free (n : PyNode) : Bool := repr_free_f (nodeSize n) n

theorem repr_free_f_congr : ∀ (f₁ : Nat) (n : PyNode) (f₂ : Nat),
    nodeSize n ≤ f₁ → nodeSize n ≤ f₂ → repr_free_f f₁ n = repr_free_f f₂ n := by
  intro f₁
  induction f₁ with
  | zero =>
      intro n f₂ h1 _
      have := one_le_nodeSize n
      omega
  | succ f ih =>
      intro n f₂ h1 h2
      match f₂ with
      | 0 =>
          have := one_le_nodeSize n
          omega
      | f₂c + 1 =>
          simp only [repr_free_f]
          congr 1
          apply list_all_congr
          intro c hc
          have := nodeSize_child_lt c n hc
          rw [ih c f₂c (by omega) (by omega)]

theorem repr_free_unfold (n : PyNode) :
    repr_free n = (node_repr_ok n && (children n).all (fun c => repr_free c)) := by
  unfold repr_free
  have h1 : 1 ≤ nodeSize n := one_le_nodeSize n
  obtain ⟨f, hf⟩ : ∃ f, nodeSize n = f + 1 := ⟨nodeSize n - 1, by omega⟩
  rw [hf]
  simp only [repr_free_f]
  congr 1
  apply list_all_congr
  intro c hc
  have := nodeSize_child_lt c n hc
  rw [repr_free_f_congr f c (nodeSize c) (by omega) le_rfl]

/-- Every node the walk visits from a repr-free queue is itself
repr-ok. -/
theorem walk_node_repr_ok :
    ∀ (fuel : Nat) (q : List PyNode), sizes q ≤ fuel →
    (∀ n ∈ q, repr_free n = true) → ∀ m ∈ walk q, node_repr_ok m = true := by
  intro fuel
  induction fuel with
  | zero =>
      intro q hq _
      match q with
      | [] => simp [walk_nil]
      | n :: rest =>
          have := one_le_nodeSize n
          simp only [sizes_cons] at hq
          omega
  | succ f ih =>
      intro q hq hclean m hm
      match q with
      | [] => simp [walk_nil] at hm
      | n :: rest =>
          have hn := hclean n (List.mem_cons_self n rest)
          rw [repr_free_unfold] at hn
          rw [walk_cons] at hm
          rcases List.mem_cons.mp hm with rfl | hm2
          · exact (Bool.and_eq_true_iff.mp hn).1
          · have hrec : ∀ x ∈ rest ++ children n, repr_free x = true := by
              intro x hx
              rcases List.mem_append.mp hx with hx | hx
              · exact hclean x (List.mem_cons_of_mem n hx)
              · have hall := (Bool.and_eq_true_iff.mp hn).2
                exact List.all_eq_true.mp hall x hx
            have hsz : sizes (rest ++ children n) ≤ f := by
              have hstep := sizes_step_lt n rest
              simp only [sizes_cons] at hq hstep
              omega
            exact ih (rest ++ children n) hsz hrec m hm2

/-- The tree CPython parses for `class C(Generic[T]):` / `    pass` — the
base is a Subscript node, which `_get_name` renders via `str(node)`. -/
def generic_tree : List PyStmt :=
  [.classDef "C" [.subscript (.name "Generic") (.name "T")] [.passStmt] [] 1 (some 2)]

/-- A source whose class base reaches the `str(node)` fallback. -/
def srcGeneric : PySource :=
  { content := "class C(Generic[T]):\n    pass\n"
    parsed := .ok generic_tree }

/-- The `str(node)` rendering of one run: fresh objects at this run's
addresses. -/
def repr_run_1 : PyExpr → String := fun _ => "<ast.Subscript object at 0x7f3a80001110>"

/-- The `str(node)` rendering of a second run over the same bytes: new
objects, different addresses. -/
def repr_run_2 : PyExpr → String := fun _ => "<ast.Subscript object at 0x7f3a80002220>"

/-- C8 is false as stated: parsing the byte-identical `class C(Generic[T])`
source twice yields element lists whose field values differ wherever the
two run renderings of `str(node)` differ — here in the dependencies of the
class element (and likewise in its signature), so the lists are not
structurally identical. -/
theorem C8_counterexample :
    ((analysis_of (parse_content_r fake_hash repr_run_1 init_state srcGeneric "g.py")).elements.map
        (fun e => e.dependencies) = [["<ast.Subscript object at 0x7f3a80001110>"]]) ∧
    ((analysis_of (parse_content_r fake_hash repr_run_2 init_state srcGeneric "g.py")).elements.map
        (fun e => e.dependencies) = [["<ast.Subscript object at 0x7f3a80002220>"]]) ∧
    (analysis_of (parse_content_r fake_hash repr_run_1 init_state srcGeneric "g.py")).elements ≠
      (analysis_of (parse_content_r fake_hash repr_run_2 init_state srcGeneric "g.py")).elements := by
  refine ⟨by decide, by decide, by decide⟩

/-- C8 amended: parsing byte-identical source twice yields a byte-identical
content_hash and identical import lists, and the instance state never
leaks (the result is independent of the state at call time, the reset
happening at the start of each successful parse); the element lists are
structurally identical across the two calls — even across two distinct
run renderings of `str(node)` — provided the source never reaches that
fallback (every class base a plain or dotted name, every decorator a
plain/dotted name or call).  For fallback-reaching sources the two calls
are only identical up to the address-bearing rendered strings (see the
counterexample). -/
theorem C8_idempotent_repr_free (sha256_hex : String → String) :
    (∀ (r1 r2 : PyExpr → String) (st1 st2 : ParserState) (src : PySource)
        (path : String) (tree : List PyStmt),
      src.parsed = .ok tree → repr_free (.module tree) = true →
      (parse_content_r sha256_hex r1 st1 src path).2 =
        (parse_content_r sha256_hex r2 st2 src path).2) ∧
    (∀ (r : PyExpr → String) (st1 st2 : ParserState) (src : PySource) (path : String),
      (parse_content_r sha256_hex r st1 src path).2 =
        (parse_content_r sha256_hex r st2 src path).2) ∧
    (∀ (r : PyExpr → String) (st st1 : ParserState) (src : PySource) (path : String)
        (tree : List PyStmt) (fa : FileAnalysis),
      src.parsed = .ok tree →
      parse_content_r sha256_hex r st src path = (st1, .ok fa) →
      fa.content_hash = sha256_hex src.content ∧
      fa.imports = ((walk [.module tree]).map import_entries_spec).flatten) := by
  refine ⟨?_, ?_, ?_⟩
  · intro r1 r2 st1 st2 src path tree hsrc hfree
    rw [parse_content_r_ok sha256_hex r1 st1 src path tree hsrc,
      parse_content_r_ok sha256_hex r2 st2 src path tree hsrc]
    have hmem : ∀ m ∈ walk [.module tree], node_repr_ok m = true := by
      apply walk_node_repr_ok (sizes [.module tree]) [.module tree] le_rfl
      intro n hn
      rw [List.mem_singleton] at hn
      subst hn
      exact hfree
    have helts : (walk [.module tree]).filterMap (element_of_r r1 none)
        = (walk [.module tree]).filterMap (element_of_r r2 none) := by
      apply List.filterMap_congr
      intro m hm
      unfold element_of_r
      rw [parse_node_r_congr r1 r2 _ m (hmem m hm)]
    rw [helts]
  · intro r st1 st2 src path
    cases h : src.parsed <;> simp [parse_content_r, h]
  · intro r st st1 src path tree fa hsrc h
    rw [parse_content_r_ok sha256_hex r st src path tree hsrc] at h
    cases h
    exact ⟨rfl, rfl⟩

/-- Witness for the amended C8 at the Widget source (which never reaches
the fallback): the second call — on the instance state left by the first
and under a different run rendering — returns the identical result. -/
theorem C8_witness :
    (parse_content_r fake_hash repr_run_1 init_state srcWidget "widget.py").2 =
      (parse_content_r fake_hash repr_run_2
        (parse_content_r fake_hash repr_run_1 init_state srcWidget "widget.py").1
        srcWidget "widget.py").2 :=
  (C8_idempotent_repr_free fake_hash).1 repr_run_1 repr_run_2 init_state
    (parse_content_r fake_hash repr_run_1 init_state srcWidget "widget.py").1
    srcWidget "widget.py" widget_tree rfl (by decide)

/-!  Claim C6: analysis of the default-application loop of
`_build_signature`. -/

theorem py_list_append_at_length (xs : List String) (j : Int) (s : String) :
    (py_list_append_at xs j s).length = xs.length := by
  simp [py_list_append_at]

theorem py_list_append_at_getD_self (xs : List String) (j : Int) (s : String)
    (h0 : 0 ≤ j) (h1 : j < (xs.length : Int)) :
    (py_list_append_at xs j s).getD j.toNat "" = xs.getD j.toNat "" ++ s := by
  unfold py_list_append_at
  rw [if_neg (by omega)]
  have hlt : j.toNat < xs.length := by omega
  simp [List.getD_eq_getElem?_getD, List.getElem?_set_self, hlt]

theorem py_list_append_at_getD_ne (xs : List String) (j : Int) (s : String) (k : Nat)
    (h0 : 0 ≤ j) (hk : (k : Int) ≠ j) :
    (py_list_append_at xs j s).getD k "" = xs.getD k "" := by
  unfold py_list_append_at
  rw [if_neg (by omega)]
  have hne : j.toNat ≠ k := by omega
  simp [List.getD_eq_getElem?_getD, List.getElem?_set_ne hne]

theorem apply_defaults_loop_length :
    ∀ (ds : List PyExpr) (off : Int) (i : Nat) (acc : List String),
    (apply_defaults_loop off i ds acc).length = acc.length := by
  intro ds
  induction ds with
  | nil => intro off i acc; rfl
  | cons d rest ih =>
      intro off i acc
      simp only [apply_defaults_loop]
      rw [ih]
      by_cases hg : off + i < (acc.length : Int)
      · rw [if_pos hg, py_list_append_at_length]
      · rw [if_neg hg]

/-- What the `enumerate(defaults)` loop leaves at each index: positions in
`[off+i, off+i+len ds)` get ` = <default>` appended, everything else is
unchanged (stated for a loop window contained in the list, which is the
only way `_build_signature` invokes it when D ≤ P). -/
theorem apply_defaults_loop_getD :
    ∀ (ds : List PyExpr) (off : Int) (i : Nat) (acc : List String) (k : Nat),
    0 ≤ off + i →
    off + i + ds.length ≤ (acc.length : Int) →
    (apply_defaults_loop off i ds acc).getD k "" =
      (if off + i ≤ (k : Int) ∧ (k : Int) < off + i + ds.length then
        acc.getD k "" ++ (" = " ++ get_default_value
          (ds.getD ((k : Int) - (off + i)).toNat (.const "")))
      else acc.getD k "") := by
  intro ds
  induction ds with
  | nil =>
      intro off i acc k _ _
      rw [if_neg (by
        simp only [List.length_nil]
        push_cast
        omega)]
      rfl
  | cons d rest ih =>
      intro off i acc k h0 hb
      simp only [List.length_cons] at hb
      push_cast at hb
      have hg : off + i < (acc.length : Int) := by omega
      simp only [apply_defaults_loop]
      rw [if_pos hg]
      have hlen := py_list_append_at_length acc (off + i) (" = " ++ get_default_value d)
      rw [ih off (i + 1) _ k (by omega)
        (by rw [hlen]; push_cast; omega)]
      by_cases hk1 : (k : Int) = off + i
      · rw [if_neg (by push_cast; omega)]
        have hkeq : k = (off + i).toNat := by omega
        rw [hkeq]
        rw [py_list_append_at_getD_self acc (off + i) _ h0 hg]
        rw [if_pos (by
          constructor
          · omega
          · simp only [List.length_cons]
            push_cast
            omega)]
        have hidx : (((off + i).toNat : Int) - (off + i)).toNat = 0 := by omega
        rw [hidx]
        rfl
      · rw [py_list_append_at_getD_ne acc (off + i) _ k h0 hk1]
        by_cases hk2 : off + (i : Int) + 1 ≤ (k : Int) ∧ (k : Int) < off + i + 1 + rest.length
        · rw [if_pos (by omega),
            if_pos (by simp only [List.length_cons]; push_cast; omega)]
          have hm : ((k : Int) - (off + i)).toNat = ((k : Int) - (off + (i + 1))).toNat + 1 := by
            omega
          rw [hm]
          rfl
        · rw [if_neg (by push_cast; omega),
            if_neg (by simp only [List.length_cons]; push_cast; omega)]

theorem getD_append_left (u v : List String) (i : Nat) (h : i < u.length) :
    (u ++ v).getD i "" = u.getD i "" := by
  simp [List.getD_eq_getElem?_getD, List.getElem?_append, h]

theorem getD_map_render (l : List PyArg) (i : Nat) :
    (l.map render_arg).getD i "" = render_arg (l.getD i { arg := "", ann := none }) := by
  simp only [List.getD_eq_getElem?_getD, List.getElem?_map]
  cases h : l[i]? with
  | none => simp [h]; rfl
  | some a => simp [h]

/-- C6: in the reconstructed signature with P positional parameters and
D ≤ P defaults, exactly the parameters at indices P-D .. P-1 render with
their default appended (`<base> = <default-literal>` where `<base>` is
`name` or `name: <type>`), and parameters below P-D render without one. -/
theorem C6_right_aligned_defaults (args : PyArguments) (i : Nat)
    (hD : args.defaults.length ≤ args.args.length)
    (hi : i < args.args.length) :
    (signature_args args).getD i "" =
      (if args.args.length - args.defaults.length ≤ i then
        render_arg (args.args.getD i { arg := "", ann := none }) ++ (" = " ++
          get_default_value (args.defaults.getD
            (i - (args.args.length - args.defaults.length)) (.const "")))
      else render_arg (args.args.getD i { arg := "", ann := none })) := by
  have hbase : (args.args.map render_arg).length = args.args.length := List.length_map _ _
  have hwdlen : (if args.defaults.isEmpty then args.args.map render_arg
      else apply_defaults_loop (((args.args.map render_arg).length : Int)
        - (args.defaults.length : Int)) 0 args.defaults (args.args.map render_arg)).length
      = args.args.length := by
    by_cases hemp : args.defaults.isEmpty
    · rw [if_pos hemp, hbase]
    · rw [if_neg hemp, apply_defaults_loop_length, hbase]
  have hsel : (signature_args args).getD i "" =
      (if args.defaults.isEmpty then args.args.map render_arg
       else apply_defaults_loop (((args.args.map render_arg).length : Int)
         - (args.defaults.length : Int)) 0 args.defaults (args.args.map render_arg)).getD i "" := by
    unfold signature_args
    cases hv : args.vararg <;> cases hk : args.kwarg <;> simp only [hv, hk] <;>
      first
      | rfl
      | rw [getD_append_left _ _ i (by rw [hwdlen]; exact hi)]
      | rw [getD_append_left _ _ i (by rw [List.length_append, hwdlen]; omega),
          getD_append_left _ _ i (by rw [hwdlen]; exact hi)]
  rw [hsel]
  by_cases hemp : args.defaults.isEmpty
  · have hD0 : args.defaults.length = 0 := by
      rw [List.isEmpty_iff] at hemp
      simp [hemp]
    rw [if_pos hemp, if_neg (by omega)]
    exact getD_map_render args.args i
  · rw [if_neg hemp, hbase]
    rw [apply_defaults_loop_getD args.defaults
      ((args.args.length : Int) - (args.defaults.length : Int)) 0
      (args.args.map render_arg) i (by omega)
      (by rw [hbase]; push_cast; omega)]
    simp only [Nat.cast_zero, add_zero]
    by_cases hreg : args.args.length - args.defaults.length ≤ i
    · rw [if_pos (by omega), if_pos hreg]
      have hidx : ((i : Int) - ((args.args.length : Int) - (args.defaults.length : Int))).toNat
          = i - (args.args.length - args.defaults.length) := by omega
      rw [hidx, getD_map_render]
    · rw [if_neg (by omega), if_neg hreg]
      exact getD_map_render args.args i

/-- Witness for C6 at resize's argument record (P = 2, D = 1, i = 1). -/
theorem C6_witness :
    (signature_args resize_args).getD 1 "" = "factor: float = 1.0" :=
  (C6_right_aligned_defaults resize_args 1 (by decide) (by decide)).trans (by decide)

/-!  Claim C10. -/

/-- Placeholder parameter record for total indexing. -/
def no_param : PyParam := { name := "", type := "", required := true, default := none }

/-- C10: a parameter is required exactly when no default string is
recorded; with P positional parameters and D defaults, parameter i is
required exactly when i < P - D (truncated subtraction, which matches
Python's always-true negative comparison when D > P), and a required
parameter's default field is None. -/
theorem C10_required_iff_default (args : PyArguments) (i : Nat)
    (hi : i < (extract_parameters args).length) :
    (((extract_parameters args).getD i no_param).required = false ↔
      ((extract_parameters args).getD i no_param).default ≠ none) ∧
    (((extract_parameters args).getD i no_param).required = true ↔
      i < args.args.length - args.defaults.length) ∧
    (((extract_parameters args).getD i no_param).required = true →
      ((extract_parameters args).getD i no_param).default = none) := by
  have hlen : (extract_parameters args).length = args.args.length := by
    simp [extract_parameters]
  have hi2 : i < args.args.length := by omega
  rw [List.getD_eq_getElem _ _ hi]
  simp only [extract_parameters, List.getElem_map, List.getElem_enum]
  by_cases hc : args.defaults.length ≠ 0 ∧
      ((args.args.length : Int) - (args.defaults.length : Int)) ≤ (i : Int)
  · rw [if_pos hc]
    obtain ⟨hc1, hc2⟩ := hc
    refine ⟨by simp, ?_, by simp⟩
    simp
    omega
  · rw [if_neg hc]
    refine ⟨by simp, ?_, by simp⟩
    simp
    omega

/-- Witness for C10 at resize's arguments: self (index 0) is required and
carries no default. -/
theorem C10_witness :
    ((extract_parameters resize_args).getD 0 no_param).required = true ∧
    ((extract_parameters resize_args).getD 0 no_param).default = none :=
  ⟨(C10_required_iff_default resize_args 0 (by decide)).2.1.mpr (by decide),
   (C10_required_iff_default resize_args 0 (by decide)).2.2
     ((C10_required_iff_default resize_args 0 (by decide)).2.1.mpr (by decide))⟩

end PyParser
